import Mathlib

/-!
Shallow embedding of the ExcelProtocol Twitch-notifier bot and proofs about
its core behaviour.

The embedding covers:
 * the data model and storage operations of database.py (subscriptions,
   per-server settings, notification-message bookkeeping);
 * the HTTP client get_live_streams of twitch_api.py, with the bearer-token
   lifecycle, the single 401 retry and the 100-name truncation;
 * the notification dispatch (send_notification), the offline cleanup
   (delete_offline_notifications) and one cycle of the polling loop
   (check_streams) of bot.py.

External effects (the Twitch HTTP API, the Discord channels) are modelled as
oracle functions supplied to each operation; Python exceptions are modelled
with Except where they can escape a function and are resolved away where the
source catches them.  Machine integers do not overflow in the source
(Python ints), so Nat is used throughout.  The started_at ISO timestamp is
modelled as UTC epoch seconds; Python computes (utcnow - started_at) as a
real number and compares it with 300, and since a future start time compares
as not-greater just like the truncated Nat subtraction, Nat subtraction is
faithful here.
-/

namespace ExcelProtocol

/-! ### Definitions: the data model and the operations of database.py,
twitch_api.py and bot.py, followed by the concrete instances used by the
witnesses. -/

/-- Row of the monitored_streamers table (database.py init_database): one
subscription of a guild to a streamer; custom_channel_id, when set, overrides
the server default channel for this subscription. -/
structure Subscription where
  guild_id : Nat
  streamer_name : String
  channel_id : Nat
  custom_channel_id : Option Nat
deriving Repr, DecidableEq

/-- Row of the server_settings table (database.py init_database): per-guild
settings; the embed_color column is nullable with column default 0x9146FF,
and auto_delete_notifications has column default 0 (false). -/
structure ServerSettings where
  guild_id : Nat
  notification_channel_id : Nat
  embed_color : Option Nat
  auto_delete_notifications : Bool
deriving Repr, DecidableEq

/-- Row of the notification_messages table (database.py): a sent notification
remembered for later auto-deletion. -/
structure NotifMsg where
  guild_id : Nat
  streamer_name : String
  channel_id : Nat
  message_id : Nat
deriving Repr, DecidableEq

/-- One live-stream record as returned by the helix streams endpoint and
consumed by bot.py (started_at as UTC epoch seconds). -/
structure Stream where
  user_id : String
  user_login : String
  user_name : String
  title : String
  game_name : String
  viewer_count : Nat
  started_at : Nat
  thumbnail_url : String
  profile_image_url : String
deriving Repr, DecidableEq

/-- Python str.lower() as used throughout the repository; the names involved
are ASCII Twitch logins, so ASCII case folding over the character list is
the whole behaviour (and, unlike the position-based recursion of
String.toLower,
it evaluates inside the kernel). -/
def lower (s : String) : String :=
  ⟨s.data.map Char.toLower⟩

/-- The durable store behind database.py, restricted to the tables the
polling core touches. -/
structure DB where
  streamers : List Subscription
  settings : List ServerSettings
  notifMessages : List NotifMsg
deriving Repr

/-- get_all_streamers (database.py): all monitored-streamer rows. -/
def get_all_streamers (db : DB) : List Subscription :=
  db.streamers

/-- get_notification_channel (database.py): the stored default channel of a
guild, if a settings row exists. -/
def get_notification_channel (db : DB) (guild_id : Nat) : Option Nat :=
  (db.settings.find? (fun r => r.guild_id == guild_id)).map
    (fun r => r.notification_channel_id)

/-- Column default of server_settings.embed_color (database.py
init_database, the ALTER TABLE migration). -/
def embed_color_column_default : Nat := 0x9146FF

/-- The color written by the resetcolor command (bot.py). -/
def reset_color_value : Nat := 0x9146FF

/-- get_embed_color (database.py): the stored color of the guild; the Python
fallback expression is `row[0] if row and row[0] else 0x00FFFF`, so a missing
row, a NULL color and a stored 0 all yield 0x00FFFF. -/
def get_embed_color (db : DB) (guild_id : Nat) : Nat :=
  match db.settings.find? (fun r => r.guild_id == guild_id) with
  | none => 0x00FFFF
  | some r =>
    match r.embed_color with
    | none => 0x00FFFF
    | some c => if c = 0 then 0x00FFFF else c

/-- get_auto_delete (database.py): whether auto-delete is enabled for a
guild; false when no settings row exists. -/
def get_auto_delete (db : DB) (guild_id : Nat) : Bool :=
  match db.settings.find? (fun r => r.guild_id == guild_id) with
  | none => false
  | some r => r.auto_delete_notifications

/-- set_notification_channel (database.py): upsert the settings row (insert
takes the column defaults for the remaining columns, conflict updates only
notification_channel_id), then bulk-update the channel_id of every
monitored-streamer row of the guild whose custom_channel_id IS NULL. -/
def set_notification_channel (db : DB) (guild_id channel_id : Nat) : DB :=
  let settings :=
    if db.settings.any (fun r => r.guild_id == guild_id) then
      db.settings.map (fun r =>
        if r.guild_id == guild_id then
          { r with notification_channel_id := channel_id }
        else r)
    else
      db.settings ++
        [{ guild_id := guild_id, notification_channel_id := channel_id,
           embed_color := some embed_color_column_default,
           auto_delete_notifications := false }]
  let streamers := db.streamers.map (fun s =>
    if s.guild_id == guild_id && s.custom_channel_id.isNone then
      { s with channel_id := channel_id }
    else s)
  { db with settings := settings, streamers := streamers }

/-- save_notification_message (database.py): insert a bookkeeping row with
the streamer name lowercased; the UNIQUE(guild_id, streamer_name, message_id)
constraint turns a duplicate insert into a caught IntegrityError (no-op). -/
def save_notification_message (db : DB) (guild_id : Nat) (streamer_name : String)
    (channel_id message_id : Nat) : DB :=
  if db.notifMessages.any (fun m =>
      m.guild_id == guild_id && m.streamer_name == lower streamer_name &&
      m.message_id == message_id) then
    db
  else
    { db with notifMessages := db.notifMessages ++
        [{ guild_id := guild_id, streamer_name := lower streamer_name,
           channel_id := channel_id, message_id := message_id }] }

/-- get_notification_messages (database.py): all bookkeeping rows for a
(guild, streamer) pair, the lookup lowercasing its input. -/
def get_notification_messages (db : DB) (guild_id : Nat) (streamer_name : String) :
    List NotifMsg :=
  db.notifMessages.filter (fun m =>
    m.guild_id == guild_id && m.streamer_name == lower streamer_name)

/-- delete_notification_messages (database.py): delete all bookkeeping rows
for a (guild, streamer) pair. -/
def delete_notification_messages (db : DB) (guild_id : Nat) (streamer_name : String) : DB :=
  { db with notifMessages := db.notifMessages.filter (fun m =>
      !(m.guild_id == guild_id && m.streamer_name == lower streamer_name)) }

/-- Outcome of one HTTPS request to the helix streams endpoint as observed by
get_live_streams (twitch_api.py): a 200 with parsed stream records, a 401,
any other non-200 status, or a raised transport/JSON exception. -/
inductive HttpResp where
  | ok (streams : List Stream)
  | unauthorized
  | errStatus (code : Nat)
  | raise
deriving Repr, DecidableEq

/-- The stream records carried by a response (an error response carries
none: its JSON body has no data key). -/
def respStreams : HttpResp → List Stream
  | .ok streams => streams
  | _ => []

/-- The upstream world as twitch_api.py sees it: the client-credentials token
exchange (none models a non-success status, on which get_access_token
raises), the streams endpoint as a function of the bearer token and the
query parameters, and the users endpoint used for profile-image enrichment
(none models any failure, which _get_profile_images maps to an empty dict). -/
structure TwitchWorld where
  tokenResult : Option String
  streamsResp : String → List String → HttpResp
  usersResp : String → List String → Option (List (String × String))

/-- get_access_token (twitch_api.py): return the cached token when present,
otherwise perform the client-credentials exchange, raising (Except.error)
when the exchange fails.  The 60-second expiry buffer is abstracted into
whether a cached token is present.  Returns the token and the new cache. -/
def get_access_token (w : TwitchWorld) (cached : Option String) :
    Except Unit (String × Option String) :=
  match cached with
  | some t => .ok (t, some t)
  | none =>
    match w.tokenResult with
    | some t => .ok (t, some t)
    | none => .error ()

/-- The query parameters built by get_live_streams: one user_login entry for
each of the first 100 usernames, lowercased (usernames[:100]). -/
def streamParams (usernames : List String) : List String :=
  (usernames.take 100).map lower

/-- The _get_profile_images lookup together with the enrichment loop of
get_live_streams (twitch_api.py): fetch id-to-profile-image pairs for the
streamers (any failure yields the empty mapping) and set profile_image_url
on every stream, defaulting to the empty string. -/
def enrich_profile_images (w : TwitchWorld) (token : String)
    (streams : List Stream) : List Stream :=
  if streams.isEmpty then streams
  else
    streams.map (fun s =>
      { s with profile_image_url :=
          (((w.usersResp token
              ((streams.map (fun s2 => s2.user_id)).take 100)).getD []).lookup
            s.user_id).getD "" })

/-- Body of the try block of get_live_streams (twitch_api.py): perform the
request; a 401 clears the cached token, fetches a fresh one and retries the
same request exactly once, parsing whatever the retry returns (an error body
has no data key and yields []); any other non-200 yields []; every exception
raised inside the block is caught by the except clause and yields [].
Returns the streams and the state of the token cache afterwards. -/
def get_live_streams_try (w : TwitchWorld) (token : String) (params : List String) :
    List Stream × Option String :=
  match w.streamsResp token params with
  | .ok streams => (enrich_profile_images w token streams, some token)
  | .unauthorized =>
    match w.tokenResult with
    | none => ([], none)
    | some fresh =>
      match w.streamsResp fresh params with
      | .ok streams => (enrich_profile_images w fresh streams, some fresh)
      | _ => ([], some fresh)
  | .errStatus _ => ([], some token)
  | .raise => ([], some token)

/-- get_live_streams (twitch_api.py): an empty username list short-circuits
to []; the initial header construction (and with it the token acquisition)
happens before the try block, so a token-endpoint failure there propagates
to the caller as a raised exception (Except.error); everything afterwards is
inside the try block and never raises. -/
def get_live_streams (w : TwitchWorld) (cached : Option String)
    (usernames : List String) : Except Unit (List Stream × Option String) :=
  if usernames.isEmpty then .ok ([], cached)
  else
    match get_access_token w cached with
    | .error e => .error e
    | .ok (token, _) => .ok (get_live_streams_try w token (streamParams usernames))

/-- A concrete live-stream record used by witnesses. -/
def c5Stream : Stream :=
  { user_id := "1001", user_login := "alice", user_name := "Alice",
    title := "speedrun", game_name := "Celeste", viewer_count := 7,
    started_at := 900, thumbnail_url := "thumb", profile_image_url := "" }

/-- A concrete upstream world used by witnesses: the old token draws a 401,
the token endpoint hands out a fresh token, and the fresh token sees one
live stream. -/
def c5World : TwitchWorld :=
  { tokenResult := some "new",
    streamsResp := fun t _ =>
      if t = "new" then HttpResp.ok [c5Stream] else HttpResp.unauthorized,
    usersResp := fun _ _ => none }

/-- The 101-name list used by the C10 witness. -/
def c10Names : List String := List.replicate 100 "aaa" ++ ["bob"]

/-- The upstream world used by the C10 witness. -/
def c10World : TwitchWorld :=
  { tokenResult := some "t",
    streamsResp := fun _ _ => HttpResp.ok [],
    usersResp := fun _ _ => none }

/-- The exceptions channel.send (and message fetch/delete) can raise at a
delivery attempt: discord.NotFound, discord.Forbidden, or any other
transport/HTTP error. -/
inductive SendErr where
  | notFound
  | forbidden
  | httpException
deriving Repr, DecidableEq

/-- The messaging-platform world as send_notification sees it: whether
get_channel finds the channel, and what channel.send does there (a message
id, or a raised exception). -/
structure NotifyWorld where
  channelExists : Nat → Bool
  sendResult : Nat → Except SendErr Nat

/-- The notification embed rendered by send_notification (bot.py): title,
outbound link, live framing, game and viewer fields, sized thumbnail and the
accent color resolved through get_embed_color. -/
structure Embed where
  title : String
  url : String
  description : String
  color : Nat
  game_field : String
  viewers_field : String
  image_url : String
deriving Repr, DecidableEq

/-- The embed construction inside send_notification (bot.py); the Python
game_name-or-fallback expression treats the empty string as falsy. -/
def render_notification_embed (db : DB) (guild_id : Nat) (stream : Stream) : Embed :=
  { title := stream.title
    url := "https://twitch.tv/" ++ stream.user_login
    description := "**" ++ stream.user_name ++ "** is now live!"
    color := get_embed_color db guild_id
    game_field := if stream.game_name = "" then "No category" else stream.game_name
    viewers_field := toString stream.viewer_count
    image_url := ((stream.thumbnail_url.replace "\x7bwidth\x7d" "440").replace
      "\x7bheight\x7d" "248") }

/-- The observable outcome of one send_notification call. -/
inductive SendOutcome where
  | delivered (message_id : Nat)
  | channelMissing
  | failed (e : SendErr)
deriving Repr, DecidableEq

/-- One send_notification call recorded for the cycle log: to whom it went
and what happened (the embed is present whenever one was rendered). -/
structure SendAttempt where
  guild_id : Nat
  streamer_name : String
  user_login : String
  channel_id : Nat
  embed : Option Embed
  outcome : SendOutcome
deriving Repr, DecidableEq

/-- Body of the try block of send_notification (bot.py): a missing channel
returns early (after an owner alert); otherwise the embed is rendered and
sent, and channel.send may raise (Except.error); on success the message id
is saved for auto-delete when the server has it enabled. -/
def send_notification_try (w : NotifyWorld) (db : DB) (server_data : Subscription)
    (stream : Stream) : Except SendErr (DB × SendAttempt) :=
  if !(w.channelExists server_data.channel_id) then
    .ok (db,
      { guild_id := server_data.guild_id, streamer_name := server_data.streamer_name,
        user_login := stream.user_login, channel_id := server_data.channel_id,
        embed := none, outcome := .channelMissing })
  else
    match w.sendResult server_data.channel_id with
    | .error e => .error e
    | .ok message_id =>
      let db1 :=
        if get_auto_delete db server_data.guild_id then
          save_notification_message db server_data.guild_id stream.user_login
            server_data.channel_id message_id
        else db
      .ok (db1,
        { guild_id := server_data.guild_id, streamer_name := server_data.streamer_name,
          user_login := stream.user_login, channel_id := server_data.channel_id,
          embed := some (render_notification_embed db server_data.guild_id stream),
          outcome := .delivered message_id })

/-- send_notification (bot.py): the whole body sits inside try/except, so a
raised delivery error is logged and the call returns normally with the
database unchanged. -/
def send_notification (w : NotifyWorld) (db : DB) (server_data : Subscription)
    (stream : Stream) : DB × SendAttempt :=
  match send_notification_try w db server_data stream with
  | .ok r => r
  | .error e =>
    (db,
      { guild_id := server_data.guild_id, streamer_name := server_data.streamer_name,
        user_login := stream.user_login, channel_id := server_data.channel_id,
        embed := some (render_notification_embed db server_data.guild_id stream),
        outcome := .failed e })

/-- The dispatch fan-out of check_streams (bot.py): one send_notification
call per monitoring server, threading the database and collecting every
attempt in order. -/
def dispatch_notifications (w : NotifyWorld) (db : DB) (servers : List Subscription)
    (stream : Stream) : DB × List SendAttempt :=
  servers.foldl
    (fun acc sd =>
      ((send_notification w acc.1 sd stream).1,
        acc.2 ++ [(send_notification w acc.1 sd stream).2]))
    (db, [])

/-- Outcome of one best-effort platform deletion inside
delete_offline_notifications: success, the channel no longer exists (skipped
silently), discord.NotFound, discord.Forbidden, or another error; every one
of them is tolerated. -/
inductive DelOutcome where
  | deleted
  | channelMissing
  | notFound
  | forbidden
  | otherError
deriving Repr, DecidableEq

/-- The messaging-platform world as the cleanup sees it. -/
structure CleanupPlatform where
  channelExists : Nat → Bool
  deleteResult : Nat → Nat → DelOutcome

/-- delete_offline_notifications (bot.py): for every server monitoring the
streamer (case-insensitively) that has auto-delete enabled, attempt a
best-effort deletion of each stored notification message and then
unconditionally clear the bookkeeping rows for (guild, streamer).  Returns
the store, the (guild, streamer) cleanup invocations, and the per-message
deletion attempts with their tolerated outcomes. -/
def delete_offline_notifications (p : CleanupPlatform) (db : DB)
    (streamer_name : String) : DB × List (Nat × String) × List (NotifMsg × DelOutcome) :=
  ((get_all_streamers db).filter
      (fun s => lower s.streamer_name == lower streamer_name)).foldl
    (fun acc sd =>
      if get_auto_delete acc.1 sd.guild_id then
        (delete_notification_messages acc.1 sd.guild_id streamer_name,
         acc.2.1 ++ [(sd.guild_id, streamer_name)],
         acc.2.2 ++ (get_notification_messages acc.1 sd.guild_id streamer_name).map
           (fun m =>
             (m, if p.channelExists m.channel_id then
               p.deleteResult m.channel_id m.message_id
             else DelOutcome.channelMissing)))
      else acc)
    (db, [], [])

/-- State carried through one polling cycle: the in-memory live set (the
Python set modelled as a duplicate-free list), the store and the effect
logs. -/
structure CycleResult where
  live : List String
  db : DB
  sendLog : List SendAttempt
  cleanupLog : List (Nat × String)

/-- Handling of one returned live-stream record in check_streams (bot.py):
skip when the login is already in the live set; when the stream started more
than 300 seconds ago, add the login to the live set but send nothing
(restart/backfill guard); otherwise add it and send one notification per
monitoring server. -/
def processLiveStream (now : Nat) (streamers : List Subscription) (w : NotifyWorld)
    (acc : CycleResult) (stream : Stream) : CycleResult :=
  if acc.live.contains stream.user_login then acc
  else if 300 < now - stream.started_at then
    { acc with live := acc.live.insert stream.user_login }
  else
    let monitoring := streamers.filter
      (fun s => lower s.streamer_name == lower stream.user_login)
    let r := dispatch_notifications w acc.db monitoring stream
    { acc with
      live := acc.live.insert stream.user_login
      db := r.1
      sendLog := acc.sendLog ++ r.2 }

/-- One iteration of the offline sweep in check_streams (bot.py): a batch
name that is in the live set but absent from the returned live names is
removed from the live set and its notifications are cleaned up. -/
def sweepStep (p : CleanupPlatform) (live_names : List String)
    (a : CycleResult) (streamer : String) : CycleResult :=
  if a.live.contains streamer && !(live_names.contains streamer) then
    { a with
      live := a.live.erase streamer
      db := (delete_offline_notifications p a.db streamer).1
      cleanupLog := a.cleanupLog ++
        (delete_offline_notifications p a.db streamer).2.1 }
  else a

/-- The offline sweep at the end of one batch in check_streams (bot.py). -/
def sweepOffline (p : CleanupPlatform) (batch_lower live_names : List String)
    (acc : CycleResult) : CycleResult :=
  batch_lower.foldl (sweepStep p live_names) acc

/-- One batch iteration of check_streams (bot.py): query the batch, process
every returned live record, then sweep the batch for offline transitions. -/
def processBatch (now : Nat) (streamers : List Subscription) (w : NotifyWorld)
    (p : CleanupPlatform) (api : List String → List Stream)
    (acc : CycleResult) (batch : List String) : CycleResult :=
  sweepOffline p (batch.map lower)
    ((api batch).map (fun s => lower s.user_login))
    ((api batch).foldl (processLiveStream now streamers w) acc)

/-- The batching loop of check_streams: range(0, len, 100) slices, written
with the list length as structural fuel. -/
def chunks100Go : Nat → List String → List (List String)
  | _, [] => []
  | 0, _ => []
  | fuel + 1, l => l.take 100 :: chunks100Go fuel (l.drop 100)

/-- The batches of at most 100 names queried by one cycle. -/
def chunks100 (l : List String) : List (List String) :=
  chunks100Go l.length l

/-- The unique set of monitored names computed by check_streams
(list(set(...))); the Python set iteration order is unspecified and is
modelled as
first-occurrence order. -/
def uniqueNames (db : DB) : List String :=
  ((get_all_streamers db).map (fun s => s.streamer_name)).dedup

/-- One execution of the check_streams polling cycle (bot.py), parameterized
by the per-batch results of get_live_streams (api) and the
messaging-platform behaviour (w for sends, p for deletions); an api result
stands for a completed get_live_streams call, the case where that call
raises being handled by the cycle-level except clause. -/
def check_streams (now : Nat) (w : NotifyWorld) (p : CleanupPlatform)
    (api : List String → List Stream) (db : DB) (live : List String) : CycleResult :=
  (chunks100 (uniqueNames db)).foldl
    (processBatch now (get_all_streamers db) w p api)
    { live := live, db := db, sendLog := [], cleanupLog := [] }

/-- The send attempts of a cycle log that went out for a given login. -/
def notifsFor (log : List SendAttempt) (s : String) : List SendAttempt :=
  log.filter (fun a => a.user_login == s)

/-- How many notifications a cycle dispatched for a login to one guild. -/
def notifCount (log : List SendAttempt) (g : Nat) (s : String) : Nat :=
  (log.filter (fun a => a.guild_id == g && a.user_login == s)).length

/-- The cleanup invocations of a cycle log for a given streamer name. -/
def cleanupsFor (log : List (Nat × String)) (s : String) : List (Nat × String) :=
  log.filter (fun e => e.2 == s)

/-- A world where every delivery raises, for the C6 witness. -/
def c6World : NotifyWorld :=
  { channelExists := fun _ => true,
    sendResult := fun _ => .error SendErr.forbidden }

/-- An empty store used by several witnesses. -/
def emptyDB : DB :=
  { streamers := [], settings := [], notifMessages := [] }

/-- A concrete subscription used by witnesses. -/
def subW : Subscription :=
  { guild_id := 5, streamer_name := "alice", channel_id := 10,
    custom_channel_id := none }

/-- A concrete store for the C8 witness: guild 5 subscribes to alice, has
auto-delete on and one remembered notification message. -/
def c8DB : DB :=
  { streamers :=
      [{ guild_id := 5, streamer_name := "alice", channel_id := 10,
         custom_channel_id := none }]
    settings :=
      [{ guild_id := 5, notification_channel_id := 10,
         embed_color := none, auto_delete_notifications := true }]
    notifMessages :=
      [{ guild_id := 5, streamer_name := "alice",
         channel_id := 10, message_id := 77 }] }

/-- A platform where every message deletion is refused, for the C8
witness. -/
def c8Platform : CleanupPlatform :=
  { channelExists := fun _ => true,
    deleteResult := fun _ _ => DelOutcome.forbidden }

/-- A store with one subscription (guild 5 watches alice, auto-delete on)
used by the cycle witnesses. -/
def dbW : DB :=
  { streamers :=
      [{ guild_id := 5, streamer_name := "alice", channel_id := 10,
         custom_channel_id := none }]
    settings :=
      [{ guild_id := 5, notification_channel_id := 10,
         embed_color := some 0x9146FF, auto_delete_notifications := true }]
    notifMessages := [] }

/-- A delivery world where every send succeeds, for the cycle witnesses. -/
def wW : NotifyWorld :=
  { channelExists := fun _ => true, sendResult := fun _ => .ok 42 }

/-- A cleanup platform where every deletion succeeds, for the cycle
witnesses. -/
def pW : CleanupPlatform :=
  { channelExists := fun _ => true, deleteResult := fun _ _ => DelOutcome.deleted }

/-- A freshly started stream for alice (started 100 seconds before the
witness cycle runs at time 1000). -/
def streamW : Stream :=
  { user_id := "1", user_login := "alice", user_name := "Alice",
    title := "hi", game_name := "Tetris", viewer_count := 2,
    started_at := 900, thumbnail_url := "t", profile_image_url := "" }

/-- A long-running stream for alice (started at epoch 0, 1000 seconds before
the witness cycle). -/
def streamOldW : Stream :=
  { user_id := "1", user_login := "alice", user_name := "Alice",
    title := "hi", game_name := "Tetris", viewer_count := 2,
    started_at := 0, thumbnail_url := "t", profile_image_url := "" }

/-- Batch results reporting alice freshly live whenever queried. -/
def apiW : List String → List Stream :=
  fun b => if b.contains "alice" then [streamW] else []

/-- Batch results reporting alice live with an old start time. -/
def apiOldW : List String → List Stream :=
  fun b => if b.contains "alice" then [streamOldW] else []

/-- Batch results reporting nobody live. -/
def apiNoneW : List String → List Stream :=
  fun _ => []

/-! ### Theorems. -/

/-- The upserted settings list resolves the guild to the new channel when a
row already existed. -/
theorem find?_map_update (l : List ServerSettings) (g ch : Nat)
    (h : l.any (fun r => r.guild_id == g) = true) :
    ((l.map (fun r =>
        if r.guild_id == g then { r with notification_channel_id := ch } else r)).find?
      (fun r => r.guild_id == g)).map (fun r => r.notification_channel_id) = some ch := by
  induction l with
  | nil => simp at h
  | cons r rest ih =>
    by_cases hr : (r.guild_id == g) = true
    · simp only [List.map_cons, if_pos hr]
      rw [List.find?_cons_of_pos _ (by simpa using hr)]
      simp
    · simp only [List.any_cons, hr, Bool.false_or] at h
      simp only [List.map_cons, if_neg hr]
      rw [List.find?_cons_of_neg _ (by simpa using hr)]
      exact ih h

/-- The upserted settings list resolves the guild to the new channel when no
row existed and the fresh row was appended. -/
theorem find?_append_new (l : List ServerSettings) (g ch : Nat)
    (h : l.any (fun r => r.guild_id == g) = false) :
    ((l ++ [({ guild_id := g, notification_channel_id := ch,
               embed_color := some embed_color_column_default,
               auto_delete_notifications := false } : ServerSettings)]).find?
      (fun r => r.guild_id == g)).map (fun r => r.notification_channel_id) = some ch := by
  induction l with
  | nil =>
    rw [List.nil_append, List.find?_cons_of_pos _ (by simp)]
    simp
  | cons r rest ih =>
    simp only [List.any_cons, Bool.or_eq_false_iff] at h
    rw [List.cons_append, List.find?_cons_of_neg _ (by simp [h.1])]
    exact ih h.2

/-- C7: setting the default notification channel of a server rewrites, row for
row, exactly the subscriptions of that server without a custom channel to the
new default, leaves every other subscription row untouched, and afterwards
the stored default channel of that server resolves to the new value. -/
theorem set_notification_channel_frame (db : DB) (g ch : Nat) :
    (∀ i : Nat,
      (set_notification_channel db g ch).streamers[i]? =
        (db.streamers[i]?).map (fun s =>
          if s.guild_id == g && s.custom_channel_id.isNone then
            { s with channel_id := ch }
          else s)) ∧
    get_notification_channel (set_notification_channel db g ch) g = some ch := by
  constructor
  · intro i
    simp [set_notification_channel, List.getElem?_map]
  · unfold set_notification_channel get_notification_channel
    by_cases h : db.settings.any (fun r => r.guild_id == g)
    · simpa [h] using find?_map_update db.settings g ch h
    · simpa [h] using
        find?_append_new db.settings g ch (by simpa using h)

/-- Enrichment only rewrites profile_image_url: every output stream is an
input stream with the login unchanged. -/
theorem enrich_user_login (w : TwitchWorld) (token : String) (streams : List Stream) :
    ∀ st ∈ enrich_profile_images w token streams,
      ∃ s0 ∈ streams, st.user_login = s0.user_login := by
  intro st hst
  by_cases he : streams.isEmpty
  · rw [enrich_profile_images, if_pos he] at hst
    exact ⟨st, hst, rfl⟩
  · rw [enrich_profile_images, if_neg he] at hst
    rw [List.mem_map] at hst
    obtain ⟨s0, hs0, rfl⟩ := hst
    exact ⟨s0, hs0, rfl⟩

/-- C5 counterexample: with no cached token and a failing token endpoint,
get_live_streams raises to its caller (the token acquisition sits before the
try block), so it is not exception-free for every username list. -/
theorem get_live_streams_raises_on_token_failure :
    get_live_streams
      { tokenResult := none,
        streamsResp := fun _ _ => HttpResp.raise,
        usersResp := fun _ _ => none }
      none ["streamer1"] = .error () := rfl

/-- C5 (amended): once the initial token acquisition succeeds (a cached
token is present or the token endpoint answers), get_live_streams never
raises; a 401 first response is retried exactly once with the freshly
fetched token, a failing retry yields the empty list, and any other
non-success first response yields the empty list. -/
theorem get_live_streams_no_raise (w : TwitchWorld) (cached : Option String)
    (usernames : List String)
    (htok : cached.isSome ∨ (w.tokenResult).isSome) :
    (∃ r, get_live_streams w cached usernames = .ok r) ∧
    (∀ t, cached = some t → usernames ≠ [] →
      w.streamsResp t (streamParams usernames) = .unauthorized →
      (w.tokenResult = none →
        get_live_streams w cached usernames = .ok ([], none)) ∧
      (∀ fresh, w.tokenResult = some fresh →
        (∀ ss, w.streamsResp fresh (streamParams usernames) = .ok ss →
          get_live_streams w cached usernames =
            .ok (enrich_profile_images w fresh ss, some fresh)) ∧
        ((∀ ss, w.streamsResp fresh (streamParams usernames) ≠ .ok ss) →
          get_live_streams w cached usernames = .ok ([], some fresh)))) ∧
    (∀ t c, cached = some t → usernames ≠ [] →
      w.streamsResp t (streamParams usernames) = .errStatus c →
      get_live_streams w cached usernames = .ok ([], some t)) := by
  refine ⟨?_, ?_, ?_⟩
  · by_cases he : usernames.isEmpty
    · exact ⟨([], cached), by simp [get_live_streams, he]⟩
    · match cached, htok with
      | some t, _ =>
        refine ⟨get_live_streams_try w t (streamParams usernames), ?_⟩
        simp [get_live_streams, he, get_access_token]
      | none, h =>
        match hw : w.tokenResult, h with
        | some t, _ =>
          refine ⟨get_live_streams_try w t (streamParams usernames), ?_⟩
          simp [get_live_streams, he, get_access_token, hw]
        | none, h =>
          simp [hw] at h
  · intro t hc hne hresp
    have he : usernames.isEmpty = false := by
      cases usernames with
      | nil => exact absurd rfl hne
      | cons a l => rfl
    subst hc
    constructor
    · intro hfetch
      simp [get_live_streams, he, get_access_token, get_live_streams_try, hresp, hfetch]
    · intro fresh hfetch
      constructor
      · intro ss hss
        simp [get_live_streams, he, get_access_token, get_live_streams_try, hresp,
          hfetch, hss]
      · intro hnot
        cases hr : w.streamsResp fresh (streamParams usernames) with
        | ok ss => exact absurd hr (hnot ss)
        | unauthorized =>
          simp [get_live_streams, he, get_access_token, get_live_streams_try,
            hresp, hfetch, hr]
        | errStatus c =>
          simp [get_live_streams, he, get_access_token, get_live_streams_try,
            hresp, hfetch, hr]
        | raise =>
          simp [get_live_streams, he, get_access_token, get_live_streams_try,
            hresp, hfetch, hr]
  · intro t c hc hne hresp
    have he : usernames.isEmpty = false := by
      cases usernames with
      | nil => exact absurd rfl hne
      | cons a l => rfl
    subst hc
    simp [get_live_streams, he, get_access_token, get_live_streams_try, hresp]

/-- Witness for the amended C5 theorem: a concrete world where the cached
token is rejected with a 401 once and the retry succeeds. -/
theorem get_live_streams_no_raise_witness :
    (∃ r, get_live_streams c5World (some "old") ["alice"] = .ok r) ∧
    get_live_streams c5World (some "old") ["alice"] =
      .ok (enrich_profile_images c5World "new" [c5Stream], some "new") := by
  have h := get_live_streams_no_raise c5World (some "old") ["alice"] (by left; rfl)
  refine ⟨h.1, ?_⟩
  exact (((h.2.1 "old" rfl (by simp) (by rfl)).2 "new" rfl).1 [c5Stream] (by rfl))

/-- Every stream in the try-block result carries a login that was part of
the query parameters, provided the upstream only reports queried names. -/
theorem get_live_streams_try_logins (w : TwitchWorld) (t : String)
    (params : List String)
    (happi : ∀ tk q, ∀ st ∈ respStreams (w.streamsResp tk q), st.user_login ∈ q) :
    ∀ st ∈ (get_live_streams_try w t params).1, st.user_login ∈ params := by
  intro st hst
  cases hr : w.streamsResp t params with
  | ok streams =>
    simp only [get_live_streams_try, hr] at hst
    obtain ⟨s0, hs0, heq⟩ := enrich_user_login w t streams st hst
    rw [heq]
    exact happi t params s0 (by simpa [respStreams, hr] using hs0)
  | unauthorized =>
    cases hf : w.tokenResult with
    | none => simp [get_live_streams_try, hr, hf] at hst
    | some fresh =>
      cases hr2 : w.streamsResp fresh params with
      | ok ss =>
        simp only [get_live_streams_try, hr, hf, hr2] at hst
        obtain ⟨s0, hs0, heq⟩ := enrich_user_login w fresh ss st hst
        rw [heq]
        exact happi fresh params s0 (by simpa [respStreams, hr2] using hs0)
      | unauthorized => simp [get_live_streams_try, hr, hf, hr2] at hst
      | errStatus c => simp [get_live_streams_try, hr, hf, hr2] at hst
      | raise => simp [get_live_streams_try, hr, hf, hr2] at hst
  | errStatus c => simp [get_live_streams_try, hr] at hst
  | raise => simp [get_live_streams_try, hr] at hst

/-- C10: get_live_streams only queries the first 100 usernames
(usernames[:100]); with lowercase-normalized input (as every caller stores
names) and an upstream that reports only queried names, a username sitting
past position 100 of the argument list is never reported live, and the call
returns an ordinary ok result with no indication that names were dropped. -/
theorem get_live_streams_drops_names_past_100 (w : TwitchWorld)
    (cached : Option String) (usernames : List String) (S : String)
    (hlow : ∀ n ∈ usernames, lower n = n)
    (hS : S ∈ usernames)
    (hafter : S ∉ usernames.take 100)
    (htok : cached.isSome ∨ (w.tokenResult).isSome)
    (happi : ∀ tk q, ∀ st ∈ respStreams (w.streamsResp tk q), st.user_login ∈ q) :
    ∃ streams c, get_live_streams w cached usernames = .ok (streams, c) ∧
      ∀ st ∈ streams, st.user_login ≠ S := by
  have hne : usernames.isEmpty = false := by
    cases usernames with
    | nil => cases hS
    | cons a l => rfl
  have htokk : ∃ t, get_access_token w cached = .ok (t, some t) := by
    match cached, htok with
    | some t, _ => exact ⟨t, rfl⟩
    | none, h =>
      match hw : w.tokenResult, h with
      | some t, _ => exact ⟨t, by simp [get_access_token, hw]⟩
      | none, h => simp [hw] at h
  obtain ⟨t, ht⟩ := htokk
  refine ⟨(get_live_streams_try w t (streamParams usernames)).1,
    (get_live_streams_try w t (streamParams usernames)).2, ?_, ?_⟩
  · simp [get_live_streams, hne, ht]
  · intro st hst hEq
    have hin := get_live_streams_try_logins w t (streamParams usernames) happi st hst
    rw [streamParams, List.mem_map] at hin
    obtain ⟨y, hy, hyl⟩ := hin
    have hyU : y ∈ usernames := List.take_subset _ _ hy
    rw [hlow y hyU] at hyl
    exact hafter (by rw [hyl, hEq] at hy; exact hy)

/-- Witness for C10 on a concrete 101-name list whose last name can never
be reported live. -/
theorem get_live_streams_drops_names_past_100_witness :
    ∃ streams c, get_live_streams c10World (some "tok") c10Names = .ok (streams, c) ∧
      ∀ st ∈ streams, st.user_login ≠ "bob" := by
  apply get_live_streams_drops_names_past_100 c10World (some "tok") c10Names "bob"
  · intro n hn
    rcases List.mem_append.1 hn with h | h
    · rw [List.eq_of_mem_replicate h]
      decide
    · rw [List.mem_singleton.1 h]
      decide
  · exact List.mem_append.2 (Or.inr (List.mem_singleton.2 rfl))
  · decide
  · exact Or.inl rfl
  · intro tk q st h
    simp [c10World, respStreams] at h

theorem save_notification_message_settings (db : DB) (g : Nat) (s : String)
    (c m : Nat) : (save_notification_message db g s c m).settings = db.settings := by
  unfold save_notification_message
  split <;> rfl

theorem save_notification_message_streamers (db : DB) (g : Nat) (s : String)
    (c m : Nat) : (save_notification_message db g s c m).streamers = db.streamers := by
  unfold save_notification_message
  split <;> rfl

theorem delete_notification_messages_settings (db : DB) (g : Nat) (s : String) :
    (delete_notification_messages db g s).settings = db.settings := rfl

theorem delete_notification_messages_streamers (db : DB) (g : Nat) (s : String) :
    (delete_notification_messages db g s).streamers = db.streamers := rfl

theorem get_auto_delete_congr (db1 db2 : DB) (g : Nat)
    (h : db1.settings = db2.settings) : get_auto_delete db1 g = get_auto_delete db2 g := by
  unfold get_auto_delete
  rw [h]

theorem get_embed_color_congr (db1 db2 : DB) (g : Nat)
    (h : db1.settings = db2.settings) : get_embed_color db1 g = get_embed_color db2 g := by
  unfold get_embed_color
  rw [h]

theorem render_notification_embed_congr (db1 db2 : DB) (g : Nat) (st : Stream)
    (h : db1.settings = db2.settings) :
    render_notification_embed db1 g st = render_notification_embed db2 g st := by
  unfold render_notification_embed
  rw [get_embed_color_congr db1 db2 g h]

theorem send_notification_settings (w : NotifyWorld) (db : DB) (sd : Subscription)
    (st : Stream) : (send_notification w db sd st).1.settings = db.settings := by
  cases hc : w.channelExists sd.channel_id with
  | false => simp [send_notification, send_notification_try, hc]
  | true =>
    cases hs : w.sendResult sd.channel_id with
    | error e => simp [send_notification, send_notification_try, hc, hs]
    | ok mid =>
      by_cases had : get_auto_delete db sd.guild_id
      · simp [send_notification, send_notification_try, hc, hs, had,
          save_notification_message_settings]
      · simp [send_notification, send_notification_try, hc, hs, had]

theorem send_notification_streamers (w : NotifyWorld) (db : DB) (sd : Subscription)
    (st : Stream) : (send_notification w db sd st).1.streamers = db.streamers := by
  cases hc : w.channelExists sd.channel_id with
  | false => simp [send_notification, send_notification_try, hc]
  | true =>
    cases hs : w.sendResult sd.channel_id with
    | error e => simp [send_notification, send_notification_try, hc, hs]
    | ok mid =>
      by_cases had : get_auto_delete db sd.guild_id
      · simp [send_notification, send_notification_try, hc, hs, had,
          save_notification_message_streamers]
      · simp [send_notification, send_notification_try, hc, hs, had]

/-- The recorded attempt of one send depends on the store only through the
settings table (via the rendered accent color). -/
theorem send_notification_snd_congr (w : NotifyWorld) (db1 db2 : DB)
    (sd : Subscription) (st : Stream) (h : db1.settings = db2.settings) :
    (send_notification w db1 sd st).2 = (send_notification w db2 sd st).2 := by
  have hr := render_notification_embed_congr db1 db2 sd.guild_id st h
  have had := get_auto_delete_congr db1 db2 sd.guild_id h
  cases hc : w.channelExists sd.channel_id with
  | false => simp [send_notification, send_notification_try, hc]
  | true =>
    cases hs : w.sendResult sd.channel_id with
    | error e => simp [send_notification, send_notification_try, hc, hs, hr]
    | ok mid =>
      by_cases h1 : get_auto_delete db1 sd.guild_id
      · simp [send_notification, send_notification_try, hc, hs, h1, had ▸ h1, hr]
      · have h2 : ¬ get_auto_delete db2 sd.guild_id = true := by rw [← had]; exact h1
        simp [send_notification, send_notification_try, hc, hs, h1, h2, hr]

theorem send_attempt_fields (w : NotifyWorld) (db : DB) (sd : Subscription)
    (st : Stream) :
    ((send_notification w db sd st).2).user_login = st.user_login ∧
    ((send_notification w db sd st).2).guild_id = sd.guild_id ∧
    ((send_notification w db sd st).2).streamer_name = sd.streamer_name := by
  cases hc : w.channelExists sd.channel_id with
  | false => simp [send_notification, send_notification_try, hc]
  | true =>
    cases hs : w.sendResult sd.channel_id with
    | error e => simp [send_notification, send_notification_try, hc, hs]
    | ok mid =>
      by_cases had : get_auto_delete db sd.guild_id
      · simp [send_notification, send_notification_try, hc, hs, had]
      · simp [send_notification, send_notification_try, hc, hs, had]

theorem dispatch_notifications_aux (w : NotifyWorld) (st : Stream) :
    ∀ (servers : List Subscription) (db : DB) (log : List SendAttempt),
      (servers.foldl
        (fun acc sd =>
          ((send_notification w acc.1 sd st).1,
            acc.2 ++ [(send_notification w acc.1 sd st).2]))
        (db, log)).2 = log ++ servers.map (fun sd => (send_notification w db sd st).2) ∧
      (servers.foldl
        (fun acc sd =>
          ((send_notification w acc.1 sd st).1,
            acc.2 ++ [(send_notification w acc.1 sd st).2]))
        (db, log)).1.settings = db.settings ∧
      (servers.foldl
        (fun acc sd =>
          ((send_notification w acc.1 sd st).1,
            acc.2 ++ [(send_notification w acc.1 sd st).2]))
        (db, log)).1.streamers = db.streamers := by
  intro servers
  induction servers with
  | nil => intro db log; simp
  | cons sd rest ih =>
    intro db log
    simp only [List.foldl_cons, List.map_cons]
    obtain ⟨h1, h2, h3⟩ := ih (send_notification w db sd st).1
      (log ++ [(send_notification w db sd st).2])
    refine ⟨?_, ?_, ?_⟩
    · rw [h1, List.append_assoc]
      congr 1
      rw [List.cons_append, List.nil_append]
      congr 1
      exact List.map_congr_left (fun x _ =>
        send_notification_snd_congr w (send_notification w db sd st).1 db x st
          (send_notification_settings w db sd st))
    · rw [h2, send_notification_settings]
    · rw [h3, send_notification_streamers]

/-- The attempt log of a dispatch fan-out: exactly one attempt per
monitoring server, in order, whatever the outcomes. -/
theorem dispatch_notifications_log (w : NotifyWorld) (db : DB)
    (servers : List Subscription) (st : Stream) :
    (dispatch_notifications w db servers st).2 =
      servers.map (fun sd => (send_notification w db sd st).2) := by
  simpa using (dispatch_notifications_aux w st servers db []).1

theorem dispatch_notifications_settings (w : NotifyWorld) (db : DB)
    (servers : List Subscription) (st : Stream) :
    (dispatch_notifications w db servers st).1.settings = db.settings :=
  (dispatch_notifications_aux w st servers db []).2.1

theorem dispatch_notifications_streamers (w : NotifyWorld) (db : DB)
    (servers : List Subscription) (st : Stream) :
    (dispatch_notifications w db servers st).1.streamers = db.streamers :=
  (dispatch_notifications_aux w st servers db []).2.2

/-- C6: send_notification is a terminal sink for delivery errors — a raised
delivery exception is caught and the call returns normally with the store
unchanged — and therefore the dispatch fan-out records exactly one attempt
per monitoring server regardless of which deliveries fail. -/
theorem send_notification_never_propagates (w : NotifyWorld) (db : DB)
    (servers : List Subscription) (st : Stream) :
    (∀ sd e, send_notification_try w db sd st = .error e →
      send_notification w db sd st =
        (db,
          { guild_id := sd.guild_id, streamer_name := sd.streamer_name,
            user_login := st.user_login, channel_id := sd.channel_id,
            embed := some (render_notification_embed db sd.guild_id st),
            outcome := .failed e })) ∧
    (dispatch_notifications w db servers st).2 =
      servers.map (fun sd => (send_notification w db sd st).2) := by
  constructor
  · intro sd e he
    unfold send_notification
    rw [he]
  · exact dispatch_notifications_log w db servers st

/-- Witness for C6: in a world where every send raises Forbidden, the
attempt list still has one entry per subscribed server. -/
theorem send_notification_never_propagates_witness :
    send_notification c6World emptyDB subW c5Stream =
      (emptyDB,
        { guild_id := 5, streamer_name := "alice", user_login := "alice",
          channel_id := 10,
          embed := some (render_notification_embed emptyDB 5 c5Stream),
          outcome := .failed SendErr.forbidden }) ∧
    (dispatch_notifications c6World emptyDB [subW, subW] c5Stream).2 =
      [subW, subW].map (fun sd => (send_notification c6World emptyDB sd c5Stream).2) := by
  have h := send_notification_never_propagates c6World emptyDB [subW, subW] c5Stream
  exact ⟨h.1 subW SendErr.forbidden rfl, h.2⟩

theorem delete_offline_fold_aux (p : CleanupPlatform) (S : String) (db0 : DB) :
    ∀ (l : List Subscription)
      (acc : DB × List (Nat × String) × List (NotifMsg × DelOutcome)),
      acc.1.settings = db0.settings →
      ((l.foldl (fun acc sd =>
          if get_auto_delete acc.1 sd.guild_id then
            (delete_notification_messages acc.1 sd.guild_id S,
             acc.2.1 ++ [(sd.guild_id, S)],
             acc.2.2 ++ (get_notification_messages acc.1 sd.guild_id S).map
               (fun m =>
                 (m, if p.channelExists m.channel_id then
                   p.deleteResult m.channel_id m.message_id
                 else DelOutcome.channelMissing)))
          else acc) acc).1.settings = acc.1.settings) ∧
      ((l.foldl (fun acc sd =>
          if get_auto_delete acc.1 sd.guild_id then
            (delete_notification_messages acc.1 sd.guild_id S,
             acc.2.1 ++ [(sd.guild_id, S)],
             acc.2.2 ++ (get_notification_messages acc.1 sd.guild_id S).map
               (fun m =>
                 (m, if p.channelExists m.channel_id then
                   p.deleteResult m.channel_id m.message_id
                 else DelOutcome.channelMissing)))
          else acc) acc).1.streamers = acc.1.streamers) ∧
      (∀ m ∈ (l.foldl (fun acc sd =>
          if get_auto_delete acc.1 sd.guild_id then
            (delete_notification_messages acc.1 sd.guild_id S,
             acc.2.1 ++ [(sd.guild_id, S)],
             acc.2.2 ++ (get_notification_messages acc.1 sd.guild_id S).map
               (fun m =>
                 (m, if p.channelExists m.channel_id then
                   p.deleteResult m.channel_id m.message_id
                 else DelOutcome.channelMissing)))
          else acc) acc).1.notifMessages, m ∈ acc.1.notifMessages) ∧
      ((l.foldl (fun acc sd =>
          if get_auto_delete acc.1 sd.guild_id then
            (delete_notification_messages acc.1 sd.guild_id S,
             acc.2.1 ++ [(sd.guild_id, S)],
             acc.2.2 ++ (get_notification_messages acc.1 sd.guild_id S).map
               (fun m =>
                 (m, if p.channelExists m.channel_id then
                   p.deleteResult m.channel_id m.message_id
                 else DelOutcome.channelMissing)))
          else acc) acc).2.1 = acc.2.1 ++
        (l.filter (fun s => get_auto_delete db0 s.guild_id)).map
          (fun s => (s.guild_id, S))) := by
  intro l
  induction l with
  | nil => intro acc _; simp
  | cons sd rest ih =>
    intro acc hsett
    by_cases hAD : get_auto_delete acc.1 sd.guild_id
    · have hAD0 : get_auto_delete db0 sd.guild_id = true := by
        rw [← get_auto_delete_congr acc.1 db0 sd.guild_id hsett]
        exact hAD
      obtain ⟨ih1, ih2, ih3, ih4⟩ := ih
        (delete_notification_messages acc.1 sd.guild_id S,
         acc.2.1 ++ [(sd.guild_id, S)],
         acc.2.2 ++ (get_notification_messages acc.1 sd.guild_id S).map
           (fun m =>
             (m, if p.channelExists m.channel_id then
               p.deleteResult m.channel_id m.message_id
             else DelOutcome.channelMissing)))
        (by simpa using hsett)
      simp only [List.foldl_cons, if_pos hAD]
      refine ⟨by rw [ih1]; rfl, by rw [ih2]; rfl, ?_, ?_⟩
      · intro m hm
        have := ih3 m hm
        simp only [delete_notification_messages] at this
        exact List.mem_of_mem_filter this
      · rw [ih4, List.filter_cons]
        simp [hAD0]
    · have hAD0 : ¬ get_auto_delete db0 sd.guild_id = true := by
        rw [← get_auto_delete_congr acc.1 db0 sd.guild_id hsett]
        exact hAD
      obtain ⟨ih1, ih2, ih3, ih4⟩ := ih acc hsett
      simp only [List.foldl_cons, if_neg hAD]
      refine ⟨ih1, ih2, ih3, ?_⟩
      rw [ih4, List.filter_cons]
      simp [hAD0]

theorem delete_offline_notifications_settings (p : CleanupPlatform) (db : DB)
    (S : String) : (delete_offline_notifications p db S).1.settings = db.settings := by
  unfold delete_offline_notifications
  exact (delete_offline_fold_aux p S db _ (db, [], []) rfl).1

theorem delete_offline_notifications_streamers (p : CleanupPlatform) (db : DB)
    (S : String) : (delete_offline_notifications p db S).1.streamers = db.streamers := by
  unfold delete_offline_notifications
  exact (delete_offline_fold_aux p S db _ (db, [], []) rfl).2.1

theorem delete_offline_notifications_msgs_subset (p : CleanupPlatform) (db : DB)
    (S : String) :
    ∀ m ∈ (delete_offline_notifications p db S).1.notifMessages,
      m ∈ db.notifMessages := by
  unfold delete_offline_notifications
  exact (delete_offline_fold_aux p S db _ (db, [], []) rfl).2.2.1

/-- The cleanup invocations recorded by one delete_offline_notifications
call: exactly the auto-delete-enabled monitoring servers, in order. -/
theorem delete_offline_notifications_log (p : CleanupPlatform) (db : DB)
    (S : String) :
    (delete_offline_notifications p db S).2.1 =
      ((db.streamers.filter (fun s => lower s.streamer_name == lower S)).filter
        (fun s => get_auto_delete db s.guild_id)).map (fun s => (s.guild_id, S)) := by
  unfold delete_offline_notifications
  simpa using (delete_offline_fold_aux p S db
    (db.streamers.filter (fun s => lower s.streamer_name == lower S))
    (db, [], []) rfl).2.2.2

/-- C8: for a subscribed server with auto-delete enabled, a run of
delete_offline_notifications leaves no NotificationMessageRecord for
(server, streamer), whatever the outcome of each underlying platform
deletion (p is arbitrary: success, not-found, forbidden, missing channel or
any other error). -/
theorem delete_offline_clears_records (p : CleanupPlatform) (db : DB)
    (S : String) (g : Nat)
    (hsub : ∃ sub ∈ db.streamers, sub.guild_id = g ∧
      lower sub.streamer_name = lower S)
    (had : get_auto_delete db g = true) :
    ∀ m ∈ (delete_offline_notifications p db S).1.notifMessages,
      ¬ (m.guild_id = g ∧ m.streamer_name = lower S) := by
  obtain ⟨sub, hmem, hg, hname⟩ := hsub
  have hsubf : sub ∈ db.streamers.filter
      (fun s => lower s.streamer_name == lower S) :=
    List.mem_filter.2 ⟨hmem, by simpa using hname⟩
  obtain ⟨l1, l2, hdecomp⟩ := List.append_of_mem hsubf
  unfold delete_offline_notifications
  intro m hm hbad
  rw [show get_all_streamers db = db.streamers from rfl, hdecomp,
    List.foldl_append, List.foldl_cons] at hm
  set acc1 := l1.foldl (fun acc sd =>
      if get_auto_delete acc.1 sd.guild_id then
        (delete_notification_messages acc.1 sd.guild_id S,
         acc.2.1 ++ [(sd.guild_id, S)],
         acc.2.2 ++ (get_notification_messages acc.1 sd.guild_id S).map
           (fun m =>
             (m, if p.channelExists m.channel_id then
               p.deleteResult m.channel_id m.message_id
             else DelOutcome.channelMissing)))
      else acc) ((db, [], []) :
        DB × List (Nat × String) × List (NotifMsg × DelOutcome)) with hacc1
  have hset1 : acc1.1.settings = db.settings :=
    (delete_offline_fold_aux p S db l1 (db, [], []) rfl).1
  have hAD1 : get_auto_delete acc1.1 sub.guild_id = true := by
    rw [get_auto_delete_congr acc1.1 db sub.guild_id hset1, hg]
    exact had
  rw [if_pos hAD1] at hm
  have hm2 := (delete_offline_fold_aux p S db l2 _ (by simpa using hset1)).2.2.1 m hm
  simp only [delete_notification_messages, List.mem_filter] at hm2
  have := hm2.2
  rw [hbad.1, hbad.2] at this
  simp [hg] at this

/-- Witness for C8: even with every platform deletion refused, no
bookkeeping row for (guild 5, alice) survives the cleanup. -/
theorem delete_offline_clears_records_witness :
    ((delete_offline_notifications c8Platform c8DB "alice").1.notifMessages.filter
      (fun m => m.guild_id == 5 && m.streamer_name == lower "alice")) = [] := by
  rw [List.filter_eq_nil_iff]
  intro m hm
  have h := delete_offline_clears_records c8Platform c8DB "alice" 5
    ⟨{ guild_id := 5, streamer_name := "alice", channel_id := 10,
       custom_channel_id := none }, by decide, rfl, rfl⟩
    (by decide) m hm
  simpa using h

theorem contains_iff_mem_str (l : List String) (a : String) :
    l.contains a = true ↔ a ∈ l := by
  simp

theorem processLiveStream_cleanupLog (now : Nat) (strs : List Subscription)
    (w : NotifyWorld) (acc : CycleResult) (st : Stream) :
    (processLiveStream now strs w acc st).cleanupLog = acc.cleanupLog := by
  unfold processLiveStream
  split
  · rfl
  · split <;> rfl

theorem processLiveStream_settings (now : Nat) (strs : List Subscription)
    (w : NotifyWorld) (acc : CycleResult) (st : Stream) :
    (processLiveStream now strs w acc st).db.settings = acc.db.settings := by
  unfold processLiveStream
  split
  · rfl
  · split
    · rfl
    · exact dispatch_notifications_settings w acc.db _ st

theorem processLiveStream_streamers (now : Nat) (strs : List Subscription)
    (w : NotifyWorld) (acc : CycleResult) (st : Stream) :
    (processLiveStream now strs w acc st).db.streamers = acc.db.streamers := by
  unfold processLiveStream
  split
  · rfl
  · split
    · rfl
    · exact dispatch_notifications_streamers w acc.db _ st

theorem processLiveStream_live_mono (now : Nat) (strs : List Subscription)
    (w : NotifyWorld) (acc : CycleResult) (st : Stream) (x : String)
    (hx : x ∈ acc.live) : x ∈ (processLiveStream now strs w acc st).live := by
  unfold processLiveStream
  split
  · exact hx
  · split <;> exact List.mem_insert_iff.2 (Or.inr hx)

theorem processLiveStream_live_sub (now : Nat) (strs : List Subscription)
    (w : NotifyWorld) (acc : CycleResult) (st : Stream) (x : String)
    (hx : x ∈ (processLiveStream now strs w acc st).live) :
    x = st.user_login ∨ x ∈ acc.live := by
  unfold processLiveStream at hx
  split at hx
  · exact Or.inr hx
  · split at hx <;> exact List.mem_insert_iff.1 hx

theorem processLiveStream_login_mem (now : Nat) (strs : List Subscription)
    (w : NotifyWorld) (acc : CycleResult) (st : Stream) :
    st.user_login ∈ (processLiveStream now strs w acc st).live := by
  unfold processLiveStream
  split
  · next hc => exact (contains_iff_mem_str _ _).1 hc
  · split <;> exact List.mem_insert_iff.2 (Or.inl rfl)

theorem processLiveStream_nodup (now : Nat) (strs : List Subscription)
    (w : NotifyWorld) (acc : CycleResult) (st : Stream)
    (h : acc.live.Nodup) : (processLiveStream now strs w acc st).live.Nodup := by
  unfold processLiveStream
  split
  · exact h
  · split <;> exact h.insert

theorem processLiveStream_skip (now : Nat) (strs : List Subscription)
    (w : NotifyWorld) (acc : CycleResult) (st : Stream)
    (h : st.user_login ∈ acc.live) :
    processLiveStream now strs w acc st = acc := by
  unfold processLiveStream
  rw [if_pos ((contains_iff_mem_str _ _).2 h)]

theorem processLiveStream_suppress (now : Nat) (strs : List Subscription)
    (w : NotifyWorld) (acc : CycleResult) (st : Stream)
    (h : st.user_login ∉ acc.live) (hold : 300 < now - st.started_at) :
    processLiveStream now strs w acc st =
      { acc with live := acc.live.insert st.user_login } := by
  unfold processLiveStream
  rw [if_neg (by simp [h]), if_pos hold]

theorem processLiveStream_notify (now : Nat) (strs : List Subscription)
    (w : NotifyWorld) (acc : CycleResult) (st : Stream)
    (h : st.user_login ∉ acc.live) (hwin : ¬ 300 < now - st.started_at) :
    processLiveStream now strs w acc st =
      { acc with
        live := acc.live.insert st.user_login
        db := (dispatch_notifications w acc.db
          (strs.filter (fun s => lower s.streamer_name == lower st.user_login)) st).1
        sendLog := acc.sendLog ++
          (strs.filter (fun s => lower s.streamer_name == lower st.user_login)).map
            (fun sd => (send_notification w acc.db sd st).2) } := by
  unfold processLiveStream
  rw [if_neg (by simp [h]), if_neg hwin]
  simp only [dispatch_notifications_log]

theorem foldPLS_settings (now : Nat) (strs : List Subscription) (w : NotifyWorld) :
    ∀ (streams : List Stream) (acc : CycleResult),
      (streams.foldl (processLiveStream now strs w) acc).db.settings =
        acc.db.settings := by
  intro streams
  induction streams with
  | nil => intro acc; rfl
  | cons st rest ih =>
    intro acc
    rw [List.foldl_cons, ih, processLiveStream_settings]

theorem foldPLS_streamers (now : Nat) (strs : List Subscription) (w : NotifyWorld) :
    ∀ (streams : List Stream) (acc : CycleResult),
      (streams.foldl (processLiveStream now strs w) acc).db.streamers =
        acc.db.streamers := by
  intro streams
  induction streams with
  | nil => intro acc; rfl
  | cons st rest ih =>
    intro acc
    rw [List.foldl_cons, ih, processLiveStream_streamers]

theorem foldPLS_cleanupLog (now : Nat) (strs : List Subscription) (w : NotifyWorld) :
    ∀ (streams : List Stream) (acc : CycleResult),
      (streams.foldl (processLiveStream now strs w) acc).cleanupLog =
        acc.cleanupLog := by
  intro streams
  induction streams with
  | nil => intro acc; rfl
  | cons st rest ih =>
    intro acc
    rw [List.foldl_cons, ih, processLiveStream_cleanupLog]

theorem foldPLS_live_mono (now : Nat) (strs : List Subscription) (w : NotifyWorld) :
    ∀ (streams : List Stream) (acc : CycleResult) (x : String), x ∈ acc.live →
      x ∈ (streams.foldl (processLiveStream now strs w) acc).live := by
  intro streams
  induction streams with
  | nil => intro acc x hx; exact hx
  | cons st rest ih =>
    intro acc x hx
    rw [List.foldl_cons]
    exact ih _ x (processLiveStream_live_mono now strs w acc st x hx)

theorem foldPLS_live_sub (now : Nat) (strs : List Subscription) (w : NotifyWorld) :
    ∀ (streams : List Stream) (acc : CycleResult) (x : String),
      x ∈ (streams.foldl (processLiveStream now strs w) acc).live →
      x ∈ acc.live ∨ ∃ st ∈ streams, x = st.user_login := by
  intro streams
  induction streams with
  | nil => intro acc x hx; exact Or.inl hx
  | cons st rest ih =>
    intro acc x hx
    rw [List.foldl_cons] at hx
    rcases ih _ x hx with h | ⟨st0, hst0, hl⟩
    · rcases processLiveStream_live_sub now strs w acc st x h with h2 | h2
      · exact Or.inr ⟨st, List.mem_cons_self st rest, h2⟩
      · exact Or.inl h2
    · exact Or.inr ⟨st0, List.mem_cons_of_mem st hst0, hl⟩

theorem foldPLS_nodup (now : Nat) (strs : List Subscription) (w : NotifyWorld) :
    ∀ (streams : List Stream) (acc : CycleResult), acc.live.Nodup →
      (streams.foldl (processLiveStream now strs w) acc).live.Nodup := by
  intro streams
  induction streams with
  | nil => intro acc h; exact h
  | cons st rest ih =>
    intro acc h
    rw [List.foldl_cons]
    exact ih _ (processLiveStream_nodup now strs w acc st h)

theorem foldPLS_S_in_live (now : Nat) (strs : List Subscription) (w : NotifyWorld)
    (S : String) :
    ∀ (streams : List Stream) (acc : CycleResult),
      (∃ st ∈ streams, st.user_login = S) →
      S ∈ (streams.foldl (processLiveStream now strs w) acc).live := by
  intro streams
  induction streams with
  | nil => intro acc h; obtain ⟨st, hst, _⟩ := h; cases hst
  | cons st rest ih =>
    intro acc ⟨st0, hst0, hl⟩
    rw [List.foldl_cons]
    rcases List.mem_cons.1 hst0 with h | h
    · refine foldPLS_live_mono now strs w rest _ S ?_
      rw [← hl, h]
      exact processLiveStream_login_mem now strs w acc st
    · exact ih _ ⟨st0, h, hl⟩

/-- A stream record whose login is not the observed name contributes no
log entry selected by a login-keyed predicate. -/
theorem processLiveStream_filter_other (now : Nat) (strs : List Subscription)
    (w : NotifyWorld) (acc : CycleResult) (st : Stream) (S : String)
    (Q : SendAttempt → Bool) (hQ : ∀ a, Q a = true → a.user_login = S)
    (hne : st.user_login ≠ S) :
    (processLiveStream now strs w acc st).sendLog.filter Q =
      acc.sendLog.filter Q := by
  unfold processLiveStream
  split
  · rfl
  · split
    · rfl
    · simp only [dispatch_notifications_log, List.filter_append]
      have hnil : List.filter Q
          ((strs.filter (fun s => lower s.streamer_name == lower st.user_login)).map
            (fun sd => (send_notification w acc.db sd st).2)) = [] := by
        rw [List.filter_eq_nil_iff]
        intro a ha hqa
        apply hne
        rw [List.mem_map] at ha
        obtain ⟨sd, _, rfl⟩ := ha
        rw [← (send_attempt_fields w acc.db sd st).1]
        exact hQ _ hqa
      rw [hnil, List.append_nil]

theorem foldPLS_filter_noS (now : Nat) (strs : List Subscription) (w : NotifyWorld)
    (S : String) (Q : SendAttempt → Bool) (hQ : ∀ a, Q a = true → a.user_login = S) :
    ∀ (streams : List Stream) (acc : CycleResult),
      (∀ st ∈ streams, st.user_login ≠ S) →
      (streams.foldl (processLiveStream now strs w) acc).sendLog.filter Q =
        acc.sendLog.filter Q := by
  intro streams
  induction streams with
  | nil => intro acc _; rfl
  | cons st rest ih =>
    intro acc hS
    rw [List.foldl_cons, ih _ (fun x hx => hS x (List.mem_cons_of_mem st hx)),
      processLiveStream_filter_other now strs w acc st S Q hQ
        (hS st (List.mem_cons_self st rest))]

theorem foldPLS_skipS (now : Nat) (strs : List Subscription) (w : NotifyWorld)
    (S : String) (Q : SendAttempt → Bool) (hQ : ∀ a, Q a = true → a.user_login = S) :
    ∀ (streams : List Stream) (acc : CycleResult), S ∈ acc.live →
      (streams.foldl (processLiveStream now strs w) acc).sendLog.filter Q =
        acc.sendLog.filter Q ∧
      S ∈ (streams.foldl (processLiveStream now strs w) acc).live := by
  intro streams
  induction streams with
  | nil => intro acc h; exact ⟨rfl, h⟩
  | cons st rest ih =>
    intro acc h
    rw [List.foldl_cons]
    by_cases hl : st.user_login = S
    · rw [processLiveStream_skip now strs w acc st (hl ▸ h)]
      exact ih acc h
    · obtain ⟨h1, h2⟩ := ih (processLiveStream now strs w acc st)
        (processLiveStream_live_mono now strs w acc st S h)
      exact ⟨by rw [h1, processLiveStream_filter_other now strs w acc st S Q hQ hl], h2⟩

/-- C9 (documenting the code bug): for a server with no stored settings row
the accent color that send_notification renders is 0x00FFFF (cyan), not the
Twitch-purple 0x9146FF that the settings-table column default and the
resetcolor command use — contradicting the inline comment of the code
itself (`default
Twitch purple`). -/
theorem get_embed_color_default_mismatch :
    get_embed_color emptyDB 1 = 0x00FFFF ∧
    (render_notification_embed emptyDB 1 c5Stream).color = 0x00FFFF ∧
    embed_color_column_default = 0x9146FF ∧
    reset_color_value = 0x9146FF ∧
    (0x00FFFF : Nat) ≠ embed_color_column_default := by
  refine ⟨rfl, rfl, rfl, rfl, ?_⟩
  decide

/-- Counting the dispatch fan-out for one guild: the attempts recorded for a
stream, filtered to one guild and the login of the stream, are one per matching
subscription row. -/
theorem attempts_count (w : NotifyWorld) (db : DB) (st : Stream) (g : Nat) :
    ∀ l : List Subscription,
      ((l.map (fun sd => (send_notification w db sd st).2)).filter
        (fun a => a.guild_id == g && a.user_login == st.user_login)).length =
      (l.filter (fun sd => sd.guild_id == g)).length := by
  intro l
  induction l with
  | nil => rfl
  | cons sd rest ih =>
    rw [List.map_cons, List.filter_cons, List.filter_cons]
    obtain ⟨hl, hg, _⟩ := send_attempt_fields w db sd st
    rw [hl, hg]
    by_cases hgg : (sd.guild_id == g) = true
    · simp [hgg, ih]
    · simp [hgg, ih]

theorem foldPLS_notifyS (now : Nat) (strs : List Subscription) (w : NotifyWorld)
    (S : String) (g : Nat) :
    ∀ (streams : List Stream) (acc : CycleResult),
      S ∉ acc.live →
      (∃ st ∈ streams, st.user_login = S) →
      (∀ st ∈ streams, st.user_login = S → ¬ 300 < now - st.started_at) →
      ((streams.foldl (processLiveStream now strs w) acc).sendLog.filter
          (fun a => a.guild_id == g && a.user_login == S)).length =
        (acc.sendLog.filter (fun a => a.guild_id == g && a.user_login == S)).length +
          ((strs.filter (fun s => lower s.streamer_name == lower S)).filter
            (fun sd => sd.guild_id == g)).length ∧
      S ∈ (streams.foldl (processLiveStream now strs w) acc).live := by
  intro streams
  induction streams with
  | nil => intro acc _ hex _; obtain ⟨st, hst, _⟩ := hex; cases hst
  | cons st rest ih =>
    intro acc hnot hex hwin
    rw [List.foldl_cons]
    by_cases hl : st.user_login = S
    · have hstep := processLiveStream_notify now strs w acc st (hl ▸ hnot)
        (hwin st (List.mem_cons_self st rest) hl)
      have hskip := foldPLS_skipS now strs w S
        (fun a => a.guild_id == g && a.user_login == S)
        (fun a ha => by
          rw [Bool.and_eq_true] at ha
          exact beq_iff_eq.1 ha.2) rest
        (processLiveStream now strs w acc st)
        (by rw [hstep]; exact List.mem_insert_iff.2 (Or.inl hl.symm))
      refine ⟨?_, hskip.2⟩
      rw [hskip.1, hstep]
      simp only [List.filter_append, List.length_append]
      rw [hl]
      have := attempts_count w acc.db st g
        (strs.filter (fun s => lower s.streamer_name == lower S))
      rw [hl] at this
      rw [this]
    · have hstep := processLiveStream_filter_other now strs w acc st S
        (fun a => a.guild_id == g && a.user_login == S)
        (fun a ha => by
          rw [Bool.and_eq_true] at ha
          exact beq_iff_eq.1 ha.2) hl
      have hnot2 : S ∉ (processLiveStream now strs w acc st).live := by
        intro hmem
        rcases processLiveStream_live_sub now strs w acc st S hmem with h | h
        · exact hl h.symm
        · exact hnot h
      obtain ⟨st0, hst0, hl0⟩ := hex
      have hst0r : st0 ∈ rest := by
        rcases List.mem_cons.1 hst0 with h | h
        · exact absurd (h ▸ hl0) hl
        · exact h
      obtain ⟨ihc, ihl⟩ := ih (processLiveStream now strs w acc st) hnot2
        ⟨st0, hst0r, hl0⟩
        (fun x hx hxl => hwin x (List.mem_cons_of_mem st hx) hxl)
      exact ⟨by rw [ihc, hstep], ihl⟩

theorem foldPLS_suppressS (now : Nat) (strs : List Subscription) (w : NotifyWorld)
    (S : String) (Q : SendAttempt → Bool) (hQ : ∀ a, Q a = true → a.user_login = S) :
    ∀ (streams : List Stream) (acc : CycleResult),
      S ∉ acc.live →
      (∃ st ∈ streams, st.user_login = S) →
      (∀ st ∈ streams, st.user_login = S → 300 < now - st.started_at) →
      (streams.foldl (processLiveStream now strs w) acc).sendLog.filter Q =
        acc.sendLog.filter Q ∧
      S ∈ (streams.foldl (processLiveStream now strs w) acc).live := by
  intro streams
  induction streams with
  | nil => intro acc _ hex _; obtain ⟨st, hst, _⟩ := hex; cases hst
  | cons st rest ih =>
    intro acc hnot hex hold
    rw [List.foldl_cons]
    by_cases hl : st.user_login = S
    · have hstep := processLiveStream_suppress now strs w acc st (hl ▸ hnot)
        (hold st (List.mem_cons_self st rest) hl)
      have hskip := foldPLS_skipS now strs w S Q hQ rest
        (processLiveStream now strs w acc st)
        (by rw [hstep]; exact List.mem_insert_iff.2 (Or.inl hl.symm))
      refine ⟨?_, hskip.2⟩
      rw [hskip.1, hstep]
    · have hstep := processLiveStream_filter_other now strs w acc st S Q hQ hl
      have hnot2 : S ∉ (processLiveStream now strs w acc st).live := by
        intro hmem
        rcases processLiveStream_live_sub now strs w acc st S hmem with h | h
        · exact hl h.symm
        · exact hnot h
      obtain ⟨st0, hst0, hl0⟩ := hex
      have hst0r : st0 ∈ rest := by
        rcases List.mem_cons.1 hst0 with h | h
        · exact absurd (h ▸ hl0) hl
        · exact h
      obtain ⟨ihc, ihl⟩ := ih (processLiveStream now strs w acc st) hnot2
        ⟨st0, hst0r, hl0⟩
        (fun x hx hxl => hold x (List.mem_cons_of_mem st hx) hxl)
      exact ⟨by rw [ihc, hstep], ihl⟩

theorem sweepStep_sendLog (p : CleanupPlatform) (ln : List String)
    (a : CycleResult) (t : String) : (sweepStep p ln a t).sendLog = a.sendLog := by
  unfold sweepStep
  split <;> rfl

theorem sweepStep_settings (p : CleanupPlatform) (ln : List String)
    (a : CycleResult) (t : String) :
    (sweepStep p ln a t).db.settings = a.db.settings := by
  unfold sweepStep
  split
  · exact delete_offline_notifications_settings p a.db t
  · rfl

theorem sweepStep_streamers (p : CleanupPlatform) (ln : List String)
    (a : CycleResult) (t : String) :
    (sweepStep p ln a t).db.streamers = a.db.streamers := by
  unfold sweepStep
  split
  · exact delete_offline_notifications_streamers p a.db t
  · rfl

theorem sweepStep_live_sub (p : CleanupPlatform) (ln : List String)
    (a : CycleResult) (t : String) (x : String)
    (hx : x ∈ (sweepStep p ln a t).live) : x ∈ a.live := by
  unfold sweepStep at hx
  split at hx
  · exact List.mem_of_mem_erase hx
  · exact hx

theorem sweepStep_keep_ne (p : CleanupPlatform) (ln : List String)
    (a : CycleResult) (t : String) (x : String)
    (hx : x ∈ a.live) (hne : x ≠ t) : x ∈ (sweepStep p ln a t).live := by
  unfold sweepStep
  split
  · exact (List.mem_erase_of_ne hne).2 hx
  · exact hx

theorem sweepStep_keep_names (p : CleanupPlatform) (ln : List String)
    (a : CycleResult) (t : String) (x : String)
    (hx : x ∈ a.live) (hln : x ∈ ln) : x ∈ (sweepStep p ln a t).live := by
  by_cases he : x = t
  · unfold sweepStep
    rw [if_neg (by subst he; simp [hln])]
    exact hx
  · exact sweepStep_keep_ne p ln a t x hx he

theorem sweepStep_nodup (p : CleanupPlatform) (ln : List String)
    (a : CycleResult) (t : String) (h : a.live.Nodup) :
    (sweepStep p ln a t).live.Nodup := by
  unfold sweepStep
  split
  · exact h.erase t
  · exact h

theorem sweepStep_cleanup_other (p : CleanupPlatform) (ln : List String)
    (a : CycleResult) (t : String) (S : String) (hne : t ≠ S) :
    cleanupsFor (sweepStep p ln a t).cleanupLog S =
      cleanupsFor a.cleanupLog S := by
  unfold sweepStep
  split
  · show cleanupsFor (a.cleanupLog ++ (delete_offline_notifications p a.db t).2.1) S = _
    unfold cleanupsFor
    rw [List.filter_append, delete_offline_notifications_log]
    have hnil : List.filter (fun e => e.2 == S)
        (((a.db.streamers.filter (fun s => lower s.streamer_name == lower t)).filter
          (fun s => get_auto_delete a.db s.guild_id)).map
          (fun s => (s.guild_id, t))) = [] := by
      rw [List.filter_eq_nil_iff]
      intro e he
      rw [List.mem_map] at he
      obtain ⟨s, _, rfl⟩ := he
      simpa using hne
    rw [hnil, List.append_nil]
  · rfl

theorem sweepStep_fire (p : CleanupPlatform) (ln : List String)
    (a : CycleResult) (t : String) (ht : t ∈ a.live) (htn : t ∉ ln) :
    sweepStep p ln a t =
      { a with
        live := a.live.erase t
        db := (delete_offline_notifications p a.db t).1
        cleanupLog := a.cleanupLog ++
          (delete_offline_notifications p a.db t).2.1 } := by
  unfold sweepStep
  rw [if_pos (by simp [ht, htn])]

theorem sweepOffline_sendLog (p : CleanupPlatform) (ln : List String) :
    ∀ (bl : List String) (acc : CycleResult),
      (sweepOffline p bl ln acc).sendLog = acc.sendLog := by
  intro bl
  induction bl with
  | nil => intro acc; rfl
  | cons t rest ih =>
    intro acc
    show (sweepOffline p rest ln (sweepStep p ln acc t)).sendLog = _
    rw [ih, sweepStep_sendLog]

theorem sweepOffline_settings (p : CleanupPlatform) (ln : List String) :
    ∀ (bl : List String) (acc : CycleResult),
      (sweepOffline p bl ln acc).db.settings = acc.db.settings := by
  intro bl
  induction bl with
  | nil => intro acc; rfl
  | cons t rest ih =>
    intro acc
    show (sweepOffline p rest ln (sweepStep p ln acc t)).db.settings = _
    rw [ih, sweepStep_settings]

theorem sweepOffline_streamers (p : CleanupPlatform) (ln : List String) :
    ∀ (bl : List String) (acc : CycleResult),
      (sweepOffline p bl ln acc).db.streamers = acc.db.streamers := by
  intro bl
  induction bl with
  | nil => intro acc; rfl
  | cons t rest ih =>
    intro acc
    show (sweepOffline p rest ln (sweepStep p ln acc t)).db.streamers = _
    rw [ih, sweepStep_streamers]

theorem sweepOffline_live_sub (p : CleanupPlatform) (ln : List String) :
    ∀ (bl : List String) (acc : CycleResult) (x : String),
      x ∈ (sweepOffline p bl ln acc).live → x ∈ acc.live := by
  intro bl
  induction bl with
  | nil => intro acc x hx; exact hx
  | cons t rest ih =>
    intro acc x hx
    exact sweepStep_live_sub p ln acc t x (ih (sweepStep p ln acc t) x hx)

theorem sweepOffline_nodup (p : CleanupPlatform) (ln : List String) :
    ∀ (bl : List String) (acc : CycleResult), acc.live.Nodup →
      (sweepOffline p bl ln acc).live.Nodup := by
  intro bl
  induction bl with
  | nil => intro acc h; exact h
  | cons t rest ih =>
    intro acc h
    exact ih (sweepStep p ln acc t) (sweepStep_nodup p ln acc t h)

theorem sweepOffline_keep (p : CleanupPlatform) (ln : List String) (S : String) :
    ∀ (bl : List String) (acc : CycleResult), S ∈ acc.live →
      (S ∈ ln ∨ S ∉ bl) → S ∈ (sweepOffline p bl ln acc).live := by
  intro bl
  induction bl with
  | nil => intro acc h _; exact h
  | cons t rest ih =>
    intro acc h hcase
    show S ∈ (sweepOffline p rest ln (sweepStep p ln acc t)).live
    rcases hcase with hln | hbl
    · exact ih _ (sweepStep_keep_names p ln acc t S h hln) (Or.inl hln)
    · have hne : S ≠ t := fun he => hbl (he ▸ List.mem_cons_self t rest)
      exact ih _ (sweepStep_keep_ne p ln acc t S h hne)
        (Or.inr (fun hr => hbl (List.mem_cons_of_mem t hr)))

theorem sweepOffline_cleanup_noS (p : CleanupPlatform) (ln : List String)
    (S : String) :
    ∀ (bl : List String) (acc : CycleResult), (∀ t ∈ bl, t ≠ S) →
      cleanupsFor (sweepOffline p bl ln acc).cleanupLog S =
        cleanupsFor acc.cleanupLog S := by
  intro bl
  induction bl with
  | nil => intro acc _; rfl
  | cons t rest ih =>
    intro acc hne
    show cleanupsFor (sweepOffline p rest ln (sweepStep p ln acc t)).cleanupLog S = _
    rw [ih _ (fun x hx => hne x (List.mem_cons_of_mem t hx)),
      sweepStep_cleanup_other p ln acc t S (hne t (List.mem_cons_self t rest))]

theorem sweepOffline_remove (p : CleanupPlatform) (ln : List String) (S : String)
    (db0 : DB) :
    ∀ (bl : List String) (acc : CycleResult),
      bl.Nodup → S ∈ bl → S ∈ acc.live → S ∉ ln → acc.live.Nodup →
      acc.db.settings = db0.settings → acc.db.streamers = db0.streamers →
      S ∉ (sweepOffline p bl ln acc).live ∧
      cleanupsFor (sweepOffline p bl ln acc).cleanupLog S =
        cleanupsFor acc.cleanupLog S ++
          ((db0.streamers.filter (fun s => lower s.streamer_name == lower S)).filter
            (fun s => get_auto_delete db0 s.guild_id)).map
            (fun s => (s.guild_id, S)) := by
  intro bl
  induction bl with
  | nil => intro acc _ hS; cases hS
  | cons t rest ih =>
    intro acc hnd hS hlive hln hlnd hsett hstr
    by_cases he : t = S
    · subst he
      have hfire := sweepStep_fire p ln acc t hlive hln
      have hnotrest : t ∉ rest := (List.nodup_cons.1 hnd).1
      have hstep_live : t ∉ (sweepStep p ln acc t).live := by
        rw [hfire]
        intro hx
        exact absurd ((hlnd.mem_erase_iff).1 hx).1 (by simp)
      constructor
      · intro hx
        exact hstep_live (sweepOffline_live_sub p ln rest _ t hx)
      · show cleanupsFor (sweepOffline p rest ln (sweepStep p ln acc t)).cleanupLog t = _
        rw [sweepOffline_cleanup_noS p ln t rest _
          (fun x hx hxe => hnotrest (hxe ▸ hx))]
        rw [hfire]
        show cleanupsFor (acc.cleanupLog ++ (delete_offline_notifications p acc.db t).2.1) t = _
        unfold cleanupsFor
        rw [List.filter_append, delete_offline_notifications_log, hstr]
        congr 1
        have hAD : (db0.streamers.filter
            (fun s => lower s.streamer_name == lower t)).filter
              (fun s => get_auto_delete acc.db s.guild_id) =
            (db0.streamers.filter
              (fun s => lower s.streamer_name == lower t)).filter
                (fun s => get_auto_delete db0 s.guild_id) :=
          List.filter_congr (fun x _ => by
            rw [get_auto_delete_congr acc.db db0 x.guild_id hsett])
        rw [hAD, List.filter_eq_self]
        intro e he
        rw [List.mem_map] at he
        obtain ⟨s, _, rfl⟩ := he
        simp
    · have hstep_live : S ∈ (sweepStep p ln acc t).live :=
        sweepStep_keep_ne p ln acc t S hlive (fun hx => he (hx.symm))
      have hrest : S ∈ rest := by
        rcases List.mem_cons.1 hS with h | h
        · exact absurd h.symm he
        · exact h
      obtain ⟨ih1, ih2⟩ := ih (sweepStep p ln acc t) (List.nodup_cons.1 hnd).2
        hrest hstep_live hln (sweepStep_nodup p ln acc t hlnd)
        (by rw [sweepStep_settings]; exact hsett)
        (by rw [sweepStep_streamers]; exact hstr)
      refine ⟨ih1, ?_⟩
      show cleanupsFor (sweepOffline p rest ln (sweepStep p ln acc t)).cleanupLog S = _
      rw [ih2, sweepStep_cleanup_other p ln acc t S he]

theorem sweepStep_cleanup_inln (p : CleanupPlatform) (ln : List String)
    (a : CycleResult) (t : String) (S : String) (hln : S ∈ ln) :
    cleanupsFor (sweepStep p ln a t).cleanupLog S =
      cleanupsFor a.cleanupLog S := by
  by_cases he : t = S
  · subst he
    unfold sweepStep
    rw [if_neg (by simp [hln])]
  · exact sweepStep_cleanup_other p ln a t S he

theorem sweepOffline_cleanup_inln (p : CleanupPlatform) (ln : List String)
    (S : String) (hln : S ∈ ln) :
    ∀ (bl : List String) (acc : CycleResult),
      cleanupsFor (sweepOffline p bl ln acc).cleanupLog S =
        cleanupsFor acc.cleanupLog S := by
  intro bl
  induction bl with
  | nil => intro acc; rfl
  | cons t rest ih =>
    intro acc
    show cleanupsFor (sweepOffline p rest ln (sweepStep p ln acc t)).cleanupLog S = _
    rw [ih, sweepStep_cleanup_inln p ln acc t S hln]

theorem map_lower_self (b : List String) (h : ∀ x ∈ b, lower x = x) :
    b.map lower = b := by
  rw [List.map_congr_left h]
  exact List.map_id b

theorem processBatch_noS (now : Nat) (strs : List Subscription) (w : NotifyWorld)
    (p : CleanupPlatform) (api : List String → List Stream) (S : String)
    (Q : SendAttempt → Bool) (hQ : ∀ a, Q a = true → a.user_login = S)
    (batch : List String) (acc : CycleResult)
    (hlow_b : ∀ x ∈ batch, lower x = x)
    (hSb : S ∉ batch)
    (hapi_b : ∀ st ∈ api batch, st.user_login ∈ batch)
    (hnd : acc.live.Nodup) :
    (S ∈ (processBatch now strs w p api acc batch).live ↔ S ∈ acc.live) ∧
    (processBatch now strs w p api acc batch).sendLog.filter Q =
      acc.sendLog.filter Q ∧
    cleanupsFor (processBatch now strs w p api acc batch).cleanupLog S =
      cleanupsFor acc.cleanupLog S ∧
    (processBatch now strs w p api acc batch).db.settings = acc.db.settings ∧
    (processBatch now strs w p api acc batch).db.streamers = acc.db.streamers ∧
    (processBatch now strs w p api acc batch).live.Nodup := by
  have hnoS : ∀ st ∈ api batch, st.user_login ≠ S :=
    fun st hst hEq => hSb (hEq ▸ hapi_b st hst)
  unfold processBatch
  rw [map_lower_self batch hlow_b]
  refine ⟨⟨fun hf => ?_, fun hb => ?_⟩, ?_, ?_, ?_, ?_, ?_⟩
  · have h1 := sweepOffline_live_sub p _ batch _ S hf
    rcases foldPLS_live_sub now strs w (api batch) acc S h1 with h | ⟨st, hst, hl⟩
    · exact h
    · exact absurd hl.symm (hnoS st hst)
  · exact sweepOffline_keep p _ S batch _
      (foldPLS_live_mono now strs w (api batch) acc S hb) (Or.inr hSb)
  · rw [sweepOffline_sendLog]
    exact foldPLS_filter_noS now strs w S Q hQ (api batch) acc hnoS
  · rw [sweepOffline_cleanup_noS p _ S batch _ (fun t ht hte => hSb (hte ▸ ht))]
    unfold cleanupsFor
    rw [foldPLS_cleanupLog]
  · rw [sweepOffline_settings, foldPLS_settings]
  · rw [sweepOffline_streamers, foldPLS_streamers]
  · exact sweepOffline_nodup p _ batch _ (foldPLS_nodup now strs w (api batch) acc hnd)

theorem processBatch_notify (now : Nat) (strs : List Subscription) (w : NotifyWorld)
    (p : CleanupPlatform) (api : List String → List Stream) (S : String) (g : Nat)
    (batch : List String) (acc : CycleResult)
    (hlow_b : ∀ x ∈ batch, lower x = x)
    (hapi_b : ∀ st ∈ api batch, st.user_login ∈ batch)
    (hnd : acc.live.Nodup)
    (hSnot : S ∉ acc.live)
    (hex : ∃ st ∈ api batch, st.user_login = S)
    (hwin : ∀ st ∈ api batch, st.user_login = S → ¬ 300 < now - st.started_at) :
    ((processBatch now strs w p api acc batch).sendLog.filter
        (fun a => a.guild_id == g && a.user_login == S)).length =
      (acc.sendLog.filter (fun a => a.guild_id == g && a.user_login == S)).length +
        ((strs.filter (fun s => lower s.streamer_name == lower S)).filter
          (fun sd => sd.guild_id == g)).length ∧
    S ∈ (processBatch now strs w p api acc batch).live ∧
    (processBatch now strs w p api acc batch).db.settings = acc.db.settings ∧
    (processBatch now strs w p api acc batch).db.streamers = acc.db.streamers ∧
    (processBatch now strs w p api acc batch).live.Nodup := by
  obtain ⟨st0, hst0, hl0⟩ := hex
  have hSlow : lower S = S := hl0 ▸ hlow_b st0.user_login (hapi_b st0 hst0)
  have hSln : S ∈ (api batch).map (fun s => lower s.user_login) :=
    List.mem_map.2 ⟨st0, hst0, by rw [hl0, hSlow]⟩
  obtain ⟨hc, hl⟩ := foldPLS_notifyS now strs w S g (api batch) acc hSnot
    ⟨st0, hst0, hl0⟩ hwin
  unfold processBatch
  refine ⟨?_, ?_, ?_, ?_, ?_⟩
  · rw [sweepOffline_sendLog]
    exact hc
  · exact sweepOffline_keep p _ S _ _ hl (Or.inl hSln)
  · rw [sweepOffline_settings, foldPLS_settings]
  · rw [sweepOffline_streamers, foldPLS_streamers]
  · exact sweepOffline_nodup p _ _ _ (foldPLS_nodup now strs w (api batch) acc hnd)

theorem processBatch_suppress (now : Nat) (strs : List Subscription)
    (w : NotifyWorld) (p : CleanupPlatform) (api : List String → List Stream)
    (S : String) (Q : SendAttempt → Bool)
    (hQ : ∀ a, Q a = true → a.user_login = S)
    (batch : List String) (acc : CycleResult)
    (hlow_b : ∀ x ∈ batch, lower x = x)
    (hapi_b : ∀ st ∈ api batch, st.user_login ∈ batch)
    (hnd : acc.live.Nodup)
    (hSnot : S ∉ acc.live)
    (hex : ∃ st ∈ api batch, st.user_login = S)
    (hold : ∀ st ∈ api batch, st.user_login = S → 300 < now - st.started_at) :
    (processBatch now strs w p api acc batch).sendLog.filter Q =
      acc.sendLog.filter Q ∧
    S ∈ (processBatch now strs w p api acc batch).live ∧
    (processBatch now strs w p api acc batch).db.settings = acc.db.settings ∧
    (processBatch now strs w p api acc batch).db.streamers = acc.db.streamers ∧
    (processBatch now strs w p api acc batch).live.Nodup := by
  obtain ⟨st0, hst0, hl0⟩ := hex
  have hSlow : lower S = S := hl0 ▸ hlow_b st0.user_login (hapi_b st0 hst0)
  have hSln : S ∈ (api batch).map (fun s => lower s.user_login) :=
    List.mem_map.2 ⟨st0, hst0, by rw [hl0, hSlow]⟩
  obtain ⟨hc, hl⟩ := foldPLS_suppressS now strs w S Q hQ (api batch) acc hSnot
    ⟨st0, hst0, hl0⟩ hold
  unfold processBatch
  refine ⟨?_, ?_, ?_, ?_, ?_⟩
  · rw [sweepOffline_sendLog]
    exact hc
  · exact sweepOffline_keep p _ S _ _ hl (Or.inl hSln)
  · rw [sweepOffline_settings, foldPLS_settings]
  · rw [sweepOffline_streamers, foldPLS_streamers]
  · exact sweepOffline_nodup p _ _ _ (foldPLS_nodup now strs w (api batch) acc hnd)

theorem processBatch_skip (now : Nat) (strs : List Subscription) (w : NotifyWorld)
    (p : CleanupPlatform) (api : List String → List Stream)
    (S : String) (Q : SendAttempt → Bool)
    (hQ : ∀ a, Q a = true → a.user_login = S)
    (batch : List String) (acc : CycleResult)
    (hlow_b : ∀ x ∈ batch, lower x = x)
    (hapi_b : ∀ st ∈ api batch, st.user_login ∈ batch)
    (hnd : acc.live.Nodup)
    (hSin : S ∈ acc.live)
    (hex : ∃ st ∈ api batch, st.user_login = S) :
    (processBatch now strs w p api acc batch).sendLog.filter Q =
      acc.sendLog.filter Q ∧
    S ∈ (processBatch now strs w p api acc batch).live ∧
    (processBatch now strs w p api acc batch).db.settings = acc.db.settings ∧
    (processBatch now strs w p api acc batch).db.streamers = acc.db.streamers ∧
    (processBatch now strs w p api acc batch).live.Nodup := by
  obtain ⟨st0, hst0, hl0⟩ := hex
  have hSlow : lower S = S := hl0 ▸ hlow_b st0.user_login (hapi_b st0 hst0)
  have hSln : S ∈ (api batch).map (fun s => lower s.user_login) :=
    List.mem_map.2 ⟨st0, hst0, by rw [hl0, hSlow]⟩
  obtain ⟨hc, hl⟩ := foldPLS_skipS now strs w S Q hQ (api batch) acc hSin
  unfold processBatch
  refine ⟨?_, ?_, ?_, ?_, ?_⟩
  · rw [sweepOffline_sendLog]
    exact hc
  · exact sweepOffline_keep p _ S _ _ hl (Or.inl hSln)
  · rw [sweepOffline_settings, foldPLS_settings]
  · rw [sweepOffline_streamers, foldPLS_streamers]
  · exact sweepOffline_nodup p _ _ _ (foldPLS_nodup now strs w (api batch) acc hnd)

theorem processBatch_offline (now : Nat) (strs : List Subscription)
    (w : NotifyWorld) (p : CleanupPlatform) (api : List String → List Stream)
    (S : String) (db0 : DB) (batch : List String) (acc : CycleResult)
    (hlow_b : ∀ x ∈ batch, lower x = x)
    (hapi_b : ∀ st ∈ api batch, st.user_login ∈ batch)
    (hnd_b : batch.Nodup)
    (hnd : acc.live.Nodup)
    (hSb : S ∈ batch)
    (hSin : S ∈ acc.live)
    (homit : ∀ st ∈ api batch, st.user_login ≠ S)
    (hsett : acc.db.settings = db0.settings)
    (hstr : acc.db.streamers = db0.streamers) :
    S ∉ (processBatch now strs w p api acc batch).live ∧
    cleanupsFor (processBatch now strs w p api acc batch).cleanupLog S =
      cleanupsFor acc.cleanupLog S ++
        ((db0.streamers.filter (fun s => lower s.streamer_name == lower S)).filter
          (fun s => get_auto_delete db0 s.guild_id)).map
          (fun s => (s.guild_id, S)) ∧
    (processBatch now strs w p api acc batch).db.settings = acc.db.settings ∧
    (processBatch now strs w p api acc batch).db.streamers = acc.db.streamers ∧
    (processBatch now strs w p api acc batch).live.Nodup := by
  have hSnotln : S ∉ (api batch).map (fun s => lower s.user_login) := by
    intro hmem
    rw [List.mem_map] at hmem
    obtain ⟨st, hst, hl⟩ := hmem
    have hlogin : st.user_login ∈ batch := hapi_b st hst
    rw [hlow_b st.user_login hlogin] at hl
    exact homit st hst hl
  unfold processBatch
  rw [map_lower_self batch hlow_b]
  have hacc1_live : S ∈ ((api batch).foldl (processLiveStream now strs w) acc).live :=
    foldPLS_live_mono now strs w (api batch) acc S hSin
  have hacc1_nd := foldPLS_nodup now strs w (api batch) acc hnd
  obtain ⟨h1, h2⟩ := sweepOffline_remove p
    ((api batch).map (fun s => lower s.user_login)) S db0 batch
    ((api batch).foldl (processLiveStream now strs w) acc)
    hnd_b hSb hacc1_live hSnotln hacc1_nd
    (by rw [foldPLS_settings]; exact hsett)
    (by rw [foldPLS_streamers]; exact hstr)
  refine ⟨h1, ?_, ?_, ?_, ?_⟩
  · rw [h2]
    unfold cleanupsFor
    rw [foldPLS_cleanupLog]
  · rw [sweepOffline_settings, foldPLS_settings]
  · rw [sweepOffline_streamers, foldPLS_streamers]
  · exact sweepOffline_nodup p _ batch _ hacc1_nd

theorem chunks100Go_flatten :
    ∀ (fuel : Nat) (l : List String), l.length ≤ fuel →
      (chunks100Go fuel l).flatten = l := by
  intro fuel
  induction fuel with
  | zero =>
    intro l hl
    have : l = [] := List.eq_nil_of_length_eq_zero (Nat.le_zero.1 hl)
    subst this
    rfl
  | succ f ih =>
    intro l hl
    cases l with
    | nil => rfl
    | cons a l2 =>
      show (List.take 100 (a :: l2) :: chunks100Go f (List.drop 100 (a :: l2))).flatten = _
      rw [List.flatten_cons, ih (List.drop 100 (a :: l2)) (by
        rw [List.length_drop]
        omega), List.take_append_drop]

theorem chunks100_flatten (l : List String) : (chunks100 l).flatten = l :=
  chunks100Go_flatten l.length l le_rfl

theorem mem_of_mem_chunks100 (l : List String) (b : List String) (x : String)
    (hb : b ∈ chunks100 l) (hx : x ∈ b) : x ∈ l := by
  rw [← chunks100_flatten l]
  exact List.mem_flatten.2 ⟨b, hb, hx⟩

/-- Splitting the batch list at the batch that contains a (unique) name:
the name appears in no other batch. -/
theorem chunks100_split (l : List String) (b : List String) (S : String)
    (hnd : l.Nodup) (hb : b ∈ chunks100 l) (hS : S ∈ b) :
    ∃ cs1 cs2, chunks100 l = cs1 ++ b :: cs2 ∧
      (∀ c ∈ cs1, S ∉ c) ∧ (∀ c ∈ cs2, S ∉ c) ∧ b.Nodup := by
  obtain ⟨cs1, cs2, hdecomp⟩ := List.append_of_mem hb
  refine ⟨cs1, cs2, hdecomp, ?_, ?_, ?_⟩
  all_goals
    have hflat : (cs1.flatten ++ (b ++ cs2.flatten)).Nodup := by
      have := chunks100_flatten l
      rw [hdecomp] at this
      rw [List.flatten_append, List.flatten_cons] at this
      rw [this]
      exact hnd
  · intro c hc hSc
    have hSflat : S ∈ cs1.flatten := List.mem_flatten.2 ⟨c, hc, hSc⟩
    have hdisj := (List.nodup_append.1 hflat).2.2
    exact hdisj hSflat (List.mem_append.2 (Or.inl hS))
  · intro c hc hSc
    have hSflat : S ∈ cs2.flatten := List.mem_flatten.2 ⟨c, hc, hSc⟩
    have hinner := (List.nodup_append.1 hflat).2.1
    have hdisj := (List.nodup_append.1 hinner).2.2
    exact hdisj hS hSflat
  · exact (List.nodup_append.1 ((List.nodup_append.1 hflat).2.1)).1

/-- Iterating batches that do not contain the observed name leaves
everything about that name unchanged. -/
theorem chunksA (now : Nat) (strs : List Subscription) (w : NotifyWorld)
    (p : CleanupPlatform) (api : List String → List Stream) (S : String)
    (Q : SendAttempt → Bool) (hQ : ∀ a, Q a = true → a.user_login = S)
    (hapi : ∀ b, ∀ st ∈ api b, st.user_login ∈ b) :
    ∀ (cs : List (List String)) (acc : CycleResult),
      (∀ c ∈ cs, S ∉ c) → (∀ c ∈ cs, ∀ x ∈ c, lower x = x) → acc.live.Nodup →
      (S ∈ (cs.foldl (processBatch now strs w p api) acc).live ↔ S ∈ acc.live) ∧
      (cs.foldl (processBatch now strs w p api) acc).sendLog.filter Q =
        acc.sendLog.filter Q ∧
      cleanupsFor (cs.foldl (processBatch now strs w p api) acc).cleanupLog S =
        cleanupsFor acc.cleanupLog S ∧
      (cs.foldl (processBatch now strs w p api) acc).db.settings =
        acc.db.settings ∧
      (cs.foldl (processBatch now strs w p api) acc).db.streamers =
        acc.db.streamers ∧
      (cs.foldl (processBatch now strs w p api) acc).live.Nodup := by
  intro cs
  induction cs with
  | nil => intro acc _ _ hnd; exact ⟨Iff.rfl, rfl, rfl, rfl, rfl, hnd⟩
  | cons c rest ih =>
    intro acc hS hlow hnd
    rw [List.foldl_cons]
    obtain ⟨b1, b2, b3, b4, b5, b6⟩ := processBatch_noS now strs w p api S Q hQ
      c acc (hlow c (List.mem_cons_self c rest)) (hS c (List.mem_cons_self c rest))
      (hapi c) hnd
    obtain ⟨i1, i2, i3, i4, i5, i6⟩ := ih (processBatch now strs w p api acc c)
      (fun x hx => hS x (List.mem_cons_of_mem c hx))
      (fun x hx => hlow x (List.mem_cons_of_mem c hx)) b6
    exact ⟨i1.trans b1, i2.trans b2, i3.trans b3, i4.trans b4, i5.trans b5, i6⟩

theorem uniqueNames_lower (db : DB)
    (hlow : ∀ sub ∈ db.streamers, lower sub.streamer_name = sub.streamer_name) :
    ∀ x ∈ uniqueNames db, lower x = x := by
  intro x hx
  rw [uniqueNames, List.mem_dedup, List.mem_map] at hx
  obtain ⟨sub, hsub, rfl⟩ := hx
  exact hlow sub hsub

/-- With a UNIQUE(guild_id, streamer_name) key, a predicate that selects
exactly the rows with one given key selects exactly one row (when one
exists). -/
theorem filter_key_length_one (l : List Subscription) (k : Nat × String)
    (hnd : (l.map (fun s => (s.guild_id, s.streamer_name))).Nodup)
    (P : Subscription → Bool)
    (hP : ∀ x ∈ l, (P x = true ↔ (x.guild_id, x.streamer_name) = k))
    (hex : ∃ x ∈ l, (x.guild_id, x.streamer_name) = k) :
    (l.filter P).length = 1 := by
  induction l with
  | nil => obtain ⟨x, hx, _⟩ := hex; cases hx
  | cons a rest ih =>
    rw [List.map_cons, List.nodup_cons] at hnd
    by_cases hPa : P a = true
    · have hka := (hP a (List.mem_cons_self a rest)).1 hPa
      rw [List.filter_cons_of_pos hPa, List.length_cons]
      have hrest : rest.filter P = [] := by
        rw [List.filter_eq_nil_iff]
        intro x hx hPx
        have hkx := (hP x (List.mem_cons_of_mem a hx)).1 hPx
        exact hnd.1 (by
          rw [hka, ← hkx]
          exact List.mem_map.2 ⟨x, hx, rfl⟩)
      rw [hrest]
      rfl
    · have hka : (a.guild_id, a.streamer_name) ≠ k :=
        fun hk => hPa ((hP a (List.mem_cons_self a rest)).2 hk)
      rw [List.filter_cons_of_neg (by simpa using hPa)]
      obtain ⟨x, hx, hkx⟩ := hex
      have hxr : x ∈ rest := by
        rcases List.mem_cons.1 hx with h | h
        · exact absurd (h ▸ hkx) hka
        · exact h
      exact ih hnd.2 (fun x hx => hP x (List.mem_cons_of_mem a hx)) ⟨x, hxr, hkx⟩

/-- The monitoring fan-out of one newly live streamer touches each
subscribing server exactly once (schema key uniqueness). -/
theorem monitoring_count_one (db : DB) (S : String) (g : Nat)
    (hlow : ∀ sub ∈ db.streamers, lower sub.streamer_name = sub.streamer_name)
    (hkeys : (db.streamers.map (fun s => (s.guild_id, s.streamer_name))).Nodup)
    (hSlow : lower S = S)
    (hsub : ∃ sub ∈ db.streamers, sub.guild_id = g ∧ sub.streamer_name = S) :
    ((db.streamers.filter (fun s => lower s.streamer_name == lower S)).filter
      (fun sd => sd.guild_id == g)).length = 1 := by
  rw [List.filter_filter]
  apply filter_key_length_one db.streamers (g, S) hkeys
  · intro x hx
    constructor
    · intro hPx
      rw [Bool.and_eq_true] at hPx
      have h1 : lower x.streamer_name = lower S := beq_iff_eq.1 hPx.2
      have h2 : x.guild_id = g := beq_iff_eq.1 hPx.1
      rw [hlow x hx, hSlow] at h1
      rw [h1, h2]
    · intro hk
      have h1 : x.guild_id = g := congrArg Prod.fst hk
      have h2 : x.streamer_name = S := congrArg Prod.snd hk
      simp [h1, h2]
  · obtain ⟨sub, hmem, hg, hname⟩ := hsub
    exact ⟨sub, hmem, by rw [hg, hname]⟩

theorem processBatch_settings (now : Nat) (strs : List Subscription)
    (w : NotifyWorld) (p : CleanupPlatform) (api : List String → List Stream)
    (acc : CycleResult) (batch : List String) :
    (processBatch now strs w p api acc batch).db.settings = acc.db.settings := by
  unfold processBatch
  rw [sweepOffline_settings, foldPLS_settings]

theorem processBatch_streamers (now : Nat) (strs : List Subscription)
    (w : NotifyWorld) (p : CleanupPlatform) (api : List String → List Stream)
    (acc : CycleResult) (batch : List String) :
    (processBatch now strs w p api acc batch).db.streamers = acc.db.streamers := by
  unfold processBatch
  rw [sweepOffline_streamers, foldPLS_streamers]

theorem processBatch_nodup (now : Nat) (strs : List Subscription)
    (w : NotifyWorld) (p : CleanupPlatform) (api : List String → List Stream)
    (acc : CycleResult) (batch : List String) (hnd : acc.live.Nodup) :
    (processBatch now strs w p api acc batch).live.Nodup := by
  unfold processBatch
  exact sweepOffline_nodup p _ _ _ (foldPLS_nodup now strs w (api batch) acc hnd)

/-- A batch whose result contains a record for the observed login leaves
that login in the live set, whatever its recency. -/
theorem processBatch_S_live (now : Nat) (strs : List Subscription)
    (w : NotifyWorld) (p : CleanupPlatform) (api : List String → List Stream)
    (S : String) (batch : List String) (acc : CycleResult)
    (hlow_b : ∀ x ∈ batch, lower x = x)
    (hapi_b : ∀ st ∈ api batch, st.user_login ∈ batch)
    (hex : ∃ st ∈ api batch, st.user_login = S) :
    S ∈ (processBatch now strs w p api acc batch).live := by
  obtain ⟨st0, hst0, hl0⟩ := hex
  have hSlow : lower S = S := hl0 ▸ hlow_b st0.user_login (hapi_b st0 hst0)
  have hSln : S ∈ (api batch).map (fun s => lower s.user_login) :=
    List.mem_map.2 ⟨st0, hst0, by rw [hl0, hSlow]⟩
  unfold processBatch
  exact sweepOffline_keep p _ S _ _
    (foldPLS_S_in_live now strs w S (api batch) acc ⟨st0, hst0, hl0⟩)
    (Or.inl hSln)

theorem chunks_fold_settings (now : Nat) (strs : List Subscription)
    (w : NotifyWorld) (p : CleanupPlatform) (api : List String → List Stream) :
    ∀ (cs : List (List String)) (acc : CycleResult),
      ((cs.foldl (processBatch now strs w p api) acc).db.settings =
        acc.db.settings) ∧
      ((cs.foldl (processBatch now strs w p api) acc).db.streamers =
        acc.db.streamers) ∧
      (acc.live.Nodup → (cs.foldl (processBatch now strs w p api) acc).live.Nodup) := by
  intro cs
  induction cs with
  | nil => intro acc; exact ⟨rfl, rfl, fun h => h⟩
  | cons c rest ih =>
    intro acc
    rw [List.foldl_cons]
    obtain ⟨i1, i2, i3⟩ := ih (processBatch now strs w p api acc c)
    exact ⟨i1.trans (processBatch_settings now strs w p api acc c),
      i2.trans (processBatch_streamers now strs w p api acc c),
      fun h => i3 (processBatch_nodup now strs w p api acc c h)⟩

theorem check_streams_db_settings (now : Nat) (w : NotifyWorld)
    (p : CleanupPlatform) (api : List String → List Stream) (db : DB)
    (live : List String) :
    (check_streams now w p api db live).db.settings = db.settings := by
  unfold check_streams
  exact (chunks_fold_settings now (get_all_streamers db) w p api _ _).1

theorem check_streams_db_streamers (now : Nat) (w : NotifyWorld)
    (p : CleanupPlatform) (api : List String → List Stream) (db : DB)
    (live : List String) :
    (check_streams now w p api db live).db.streamers = db.streamers := by
  unfold check_streams
  exact (chunks_fold_settings now (get_all_streamers db) w p api _ _).2.1

theorem check_streams_live_nodup (now : Nat) (w : NotifyWorld)
    (p : CleanupPlatform) (api : List String → List Stream) (db : DB)
    (live : List String) (hnd : live.Nodup) :
    (check_streams now w p api db live).live.Nodup := by
  unfold check_streams
  exact (chunks_fold_settings now (get_all_streamers db) w p api _ _).2.2 hnd

theorem mem_cleanupsFor (log : List (Nat × String)) (g : Nat) (S : String) :
    (g, S) ∈ cleanupsFor log S ↔ (g, S) ∈ log := by
  unfold cleanupsFor
  rw [List.mem_filter]
  simp

/-- A cycle whose batch results contain a record for S leaves S in the live
set, whatever the recency of the record and whatever the starting state of S. -/
theorem check_streams_sees_live (now : Nat) (w : NotifyWorld) (p : CleanupPlatform)
    (api : List String → List Stream) (db : DB) (live : List String) (S : String)
    (hlow : ∀ sub ∈ db.streamers, lower sub.streamer_name = sub.streamer_name)
    (hapi : ∀ b, ∀ st ∈ api b, st.user_login ∈ b)
    (hnd_live : live.Nodup)
    (hex : ∃ b ∈ chunks100 (uniqueNames db), ∃ st ∈ api b, st.user_login = S) :
    S ∈ (check_streams now w p api db live).live := by
  obtain ⟨b, hbmem, st0, hst0, hl0⟩ := hex
  have hSb : S ∈ b := hl0 ▸ hapi b st0 hst0
  have hlowU := uniqueNames_lower db hlow
  obtain ⟨cs1, cs2, hdecomp, hno1, hno2, _⟩ :=
    chunks100_split (uniqueNames db) b S (List.nodup_dedup _) hbmem hSb
  have hlowc : ∀ c ∈ chunks100 (uniqueNames db), ∀ x ∈ c, lower x = x :=
    fun c hc x hx => hlowU x (mem_of_mem_chunks100 _ c x hc hx)
  have hlow1 : ∀ c ∈ cs1, ∀ x ∈ c, lower x = x := fun c hc =>
    hlowc c (by rw [hdecomp]; exact List.mem_append.2 (Or.inl hc))
  have hlow2 : ∀ c ∈ cs2, ∀ x ∈ c, lower x = x := fun c hc =>
    hlowc c (by
      rw [hdecomp]
      exact List.mem_append.2 (Or.inr (List.mem_cons_of_mem b hc)))
  have hlowb : ∀ x ∈ b, lower x = x :=
    hlowc b (by rw [hdecomp]; exact List.mem_append.2 (Or.inr (List.mem_cons_self b cs2)))
  have hQ : ∀ a : SendAttempt, (fun _ : SendAttempt => false) a = true →
      a.user_login = S := fun a ha => absurd ha (by simp)
  unfold check_streams
  rw [hdecomp, List.foldl_append, List.foldl_cons]
  obtain ⟨a1, a2, a3, a4, a5, a6⟩ := chunksA now (get_all_streamers db) w p api S
    (fun _ => false) hQ hapi cs1
    { live := live, db := db, sendLog := [], cleanupLog := [] } hno1 hlow1 hnd_live
  have hb := processBatch_S_live now (get_all_streamers db) w p api S b
    (cs1.foldl (processBatch now (get_all_streamers db) w p api)
      { live := live, db := db, sendLog := [], cleanupLog := [] })
    hlowb (hapi b) ⟨st0, hst0, hl0⟩
  obtain ⟨c1, c2, c3, c4, c5, c6⟩ := chunksA now (get_all_streamers db) w p api S
    (fun _ => false) hQ hapi cs2 _ hno2 hlow2
    (processBatch_nodup now (get_all_streamers db) w p api _ b a6)
  exact c1.2 hb

/-- A cycle that starts with S live and sees a record for S keeps S live and
dispatches nothing for S (edge-triggered detection). -/
theorem check_streams_keeps_live (now : Nat) (w : NotifyWorld) (p : CleanupPlatform)
    (api : List String → List Stream) (db : DB) (live : List String) (S : String)
    (hlow : ∀ sub ∈ db.streamers, lower sub.streamer_name = sub.streamer_name)
    (hapi : ∀ b, ∀ st ∈ api b, st.user_login ∈ b)
    (hnd_live : live.Nodup)
    (hin : S ∈ live)
    (hex : ∃ b ∈ chunks100 (uniqueNames db), ∃ st ∈ api b, st.user_login = S) :
    notifsFor (check_streams now w p api db live).sendLog S = [] ∧
    S ∈ (check_streams now w p api db live).live := by
  obtain ⟨b, hbmem, st0, hst0, hl0⟩ := hex
  have hSb : S ∈ b := hl0 ▸ hapi b st0 hst0
  have hlowU := uniqueNames_lower db hlow
  obtain ⟨cs1, cs2, hdecomp, hno1, hno2, _⟩ :=
    chunks100_split (uniqueNames db) b S (List.nodup_dedup _) hbmem hSb
  have hlowc : ∀ c ∈ chunks100 (uniqueNames db), ∀ x ∈ c, lower x = x :=
    fun c hc x hx => hlowU x (mem_of_mem_chunks100 _ c x hc hx)
  have hlow1 : ∀ c ∈ cs1, ∀ x ∈ c, lower x = x := fun c hc =>
    hlowc c (by rw [hdecomp]; exact List.mem_append.2 (Or.inl hc))
  have hlow2 : ∀ c ∈ cs2, ∀ x ∈ c, lower x = x := fun c hc =>
    hlowc c (by
      rw [hdecomp]
      exact List.mem_append.2 (Or.inr (List.mem_cons_of_mem b hc)))
  have hlowb : ∀ x ∈ b, lower x = x :=
    hlowc b (by rw [hdecomp]; exact List.mem_append.2 (Or.inr (List.mem_cons_self b cs2)))
  have hQ : ∀ a : SendAttempt, (fun a : SendAttempt => a.user_login == S) a = true →
      a.user_login = S := fun a ha => beq_iff_eq.1 ha
  unfold check_streams notifsFor
  rw [hdecomp, List.foldl_append, List.foldl_cons]
  obtain ⟨a1, a2, a3, a4, a5, a6⟩ := chunksA now (get_all_streamers db) w p api S
    (fun a => a.user_login == S) hQ hapi cs1
    { live := live, db := db, sendLog := [], cleanupLog := [] } hno1 hlow1 hnd_live
  obtain ⟨b1, b2, b3, b4, b5⟩ := processBatch_skip now (get_all_streamers db) w p api S
    (fun a => a.user_login == S) hQ b
    (cs1.foldl (processBatch now (get_all_streamers db) w p api)
      { live := live, db := db, sendLog := [], cleanupLog := [] })
    hlowb (hapi b) a6 (a1.2 hin) ⟨st0, hst0, hl0⟩
  obtain ⟨c1, c2, c3, c4, c5, c6⟩ := chunksA now (get_all_streamers db) w p api S
    (fun a => a.user_login == S) hQ hapi cs2 _ hno2 hlow2 b5
  refine ⟨?_, c1.2 b2⟩
  rw [c2, b1, a2]
  rfl

/-- C1: for a streamer S not in the live set, a cycle whose batch reports S
live with started_at inside the 5-minute window dispatches exactly one
notification for S to each subscribing server and ends with S in the live
set. -/
theorem check_streams_notifies_new_live (now : Nat) (w : NotifyWorld)
    (p : CleanupPlatform) (api : List String → List Stream) (db : DB)
    (live : List String) (S : String) (g : Nat)
    (hlow : ∀ sub ∈ db.streamers, lower sub.streamer_name = sub.streamer_name)
    (hkeys : (db.streamers.map (fun s => (s.guild_id, s.streamer_name))).Nodup)
    (hapi : ∀ b, ∀ st ∈ api b, st.user_login ∈ b)
    (hnd_live : live.Nodup)
    (hnotlive : S ∉ live)
    (hsub : ∃ sub ∈ db.streamers, sub.guild_id = g ∧ sub.streamer_name = S)
    (hbatch : ∃ b ∈ chunks100 (uniqueNames db),
      (∃ st ∈ api b, st.user_login = S) ∧
      (∀ st ∈ api b, st.user_login = S → now - st.started_at ≤ 300)) :
    notifCount (check_streams now w p api db live).sendLog g S = 1 ∧
    S ∈ (check_streams now w p api db live).live := by
  obtain ⟨b, hbmem, hex, hwin⟩ := hbatch
  obtain ⟨st0, hst0, hl0⟩ := hex
  have hSb : S ∈ b := hl0 ▸ hapi b st0 hst0
  have hSlow : lower S = S := by
    obtain ⟨sub0, hm0, _, hn0⟩ := hsub
    rw [← hn0]
    exact hlow sub0 hm0
  have hlowU := uniqueNames_lower db hlow
  obtain ⟨cs1, cs2, hdecomp, hno1, hno2, _⟩ :=
    chunks100_split (uniqueNames db) b S (List.nodup_dedup _) hbmem hSb
  have hlowc : ∀ c ∈ chunks100 (uniqueNames db), ∀ x ∈ c, lower x = x :=
    fun c hc x hx => hlowU x (mem_of_mem_chunks100 _ c x hc hx)
  have hlow1 : ∀ c ∈ cs1, ∀ x ∈ c, lower x = x := fun c hc =>
    hlowc c (by rw [hdecomp]; exact List.mem_append.2 (Or.inl hc))
  have hlow2 : ∀ c ∈ cs2, ∀ x ∈ c, lower x = x := fun c hc =>
    hlowc c (by
      rw [hdecomp]
      exact List.mem_append.2 (Or.inr (List.mem_cons_of_mem b hc)))
  have hlowb : ∀ x ∈ b, lower x = x :=
    hlowc b (by rw [hdecomp]; exact List.mem_append.2 (Or.inr (List.mem_cons_self b cs2)))
  have hQ : ∀ a : SendAttempt,
      (fun a : SendAttempt => a.guild_id == g && a.user_login == S) a = true →
      a.user_login = S := fun a ha => by
    rw [Bool.and_eq_true] at ha
    exact beq_iff_eq.1 ha.2
  unfold check_streams notifCount
  rw [hdecomp, List.foldl_append, List.foldl_cons]
  obtain ⟨a1, a2, a3, a4, a5, a6⟩ := chunksA now (get_all_streamers db) w p api S
    (fun a => a.guild_id == g && a.user_login == S) hQ hapi cs1
    { live := live, db := db, sendLog := [], cleanupLog := [] } hno1 hlow1 hnd_live
  have hwin2 : ∀ st ∈ api b, st.user_login = S → ¬ 300 < now - st.started_at :=
    fun st hst hl => not_lt.2 (hwin st hst hl)
  obtain ⟨b1, b2, b3, b4, b5⟩ := processBatch_notify now (get_all_streamers db)
    w p api S g b
    (cs1.foldl (processBatch now (get_all_streamers db) w p api)
      { live := live, db := db, sendLog := [], cleanupLog := [] })
    hlowb (hapi b) a6 (fun hmem => hnotlive (a1.1 hmem)) ⟨st0, hst0, hl0⟩ hwin2
  obtain ⟨c1, c2, c3, c4, c5, c6⟩ := chunksA now (get_all_streamers db) w p api S
    (fun a => a.guild_id == g && a.user_login == S) hQ hapi cs2 _ hno2 hlow2 b5
  refine ⟨?_, c1.2 b2⟩
  rw [c2, b1, a2]
  simpa [get_all_streamers] using monitoring_count_one db S g hlow hkeys hSlow hsub

/-- C2: for a streamer S not in the live set whose first observation reports
started_at older than the 5-minute window, the cycle dispatches no
notification for S and still adds S to the live set. -/
theorem check_streams_suppresses_old_stream (now : Nat) (w : NotifyWorld)
    (p : CleanupPlatform) (api : List String → List Stream) (db : DB)
    (live : List String) (S : String)
    (hlow : ∀ sub ∈ db.streamers, lower sub.streamer_name = sub.streamer_name)
    (hapi : ∀ b, ∀ st ∈ api b, st.user_login ∈ b)
    (hnd_live : live.Nodup)
    (hnotlive : S ∉ live)
    (hbatch : ∃ b ∈ chunks100 (uniqueNames db),
      (∃ st ∈ api b, st.user_login = S) ∧
      (∀ st ∈ api b, st.user_login = S → 300 < now - st.started_at)) :
    notifsFor (check_streams now w p api db live).sendLog S = [] ∧
    S ∈ (check_streams now w p api db live).live := by
  obtain ⟨b, hbmem, hex, hold⟩ := hbatch
  obtain ⟨st0, hst0, hl0⟩ := hex
  have hSb : S ∈ b := hl0 ▸ hapi b st0 hst0
  have hlowU := uniqueNames_lower db hlow
  obtain ⟨cs1, cs2, hdecomp, hno1, hno2, _⟩ :=
    chunks100_split (uniqueNames db) b S (List.nodup_dedup _) hbmem hSb
  have hlowc : ∀ c ∈ chunks100 (uniqueNames db), ∀ x ∈ c, lower x = x :=
    fun c hc x hx => hlowU x (mem_of_mem_chunks100 _ c x hc hx)
  have hlow1 : ∀ c ∈ cs1, ∀ x ∈ c, lower x = x := fun c hc =>
    hlowc c (by rw [hdecomp]; exact List.mem_append.2 (Or.inl hc))
  have hlow2 : ∀ c ∈ cs2, ∀ x ∈ c, lower x = x := fun c hc =>
    hlowc c (by
      rw [hdecomp]
      exact List.mem_append.2 (Or.inr (List.mem_cons_of_mem b hc)))
  have hlowb : ∀ x ∈ b, lower x = x :=
    hlowc b (by rw [hdecomp]; exact List.mem_append.2 (Or.inr (List.mem_cons_self b cs2)))
  have hQ : ∀ a : SendAttempt, (fun a : SendAttempt => a.user_login == S) a = true →
      a.user_login = S := fun a ha => beq_iff_eq.1 ha
  unfold check_streams notifsFor
  rw [hdecomp, List.foldl_append, List.foldl_cons]
  obtain ⟨a1, a2, a3, a4, a5, a6⟩ := chunksA now (get_all_streamers db) w p api S
    (fun a => a.user_login == S) hQ hapi cs1
    { live := live, db := db, sendLog := [], cleanupLog := [] } hno1 hlow1 hnd_live
  obtain ⟨b1, b2, b3, b4, b5⟩ := processBatch_suppress now (get_all_streamers db)
    w p api S (fun a => a.user_login == S) hQ b
    (cs1.foldl (processBatch now (get_all_streamers db) w p api)
      { live := live, db := db, sendLog := [], cleanupLog := [] })
    hlowb (hapi b) a6 (fun hmem => hnotlive (a1.1 hmem)) ⟨st0, hst0, hl0⟩ hold
  obtain ⟨c1, c2, c3, c4, c5, c6⟩ := chunksA now (get_all_streamers db) w p api S
    (fun a => a.user_login == S) hQ hapi cs2 _ hno2 hlow2 b5
  refine ⟨?_, c1.2 b2⟩
  rw [c2, b1, a2]
  rfl

/-- C3: for a streamer S in the live set whose own batch omits S from its
live results, the cycle removes S from the live set, and offline cleanup is
invoked for (server, S) exactly for the subscribing servers with auto-delete
enabled. -/
theorem check_streams_offline_cleanup (now : Nat) (w : NotifyWorld)
    (p : CleanupPlatform) (api : List String → List Stream) (db : DB)
    (live : List String) (S : String) (g : Nat)
    (hlow : ∀ sub ∈ db.streamers, lower sub.streamer_name = sub.streamer_name)
    (hapi : ∀ b, ∀ st ∈ api b, st.user_login ∈ b)
    (hnd_live : live.Nodup)
    (hin : S ∈ live)
    (hbatch : ∃ b ∈ chunks100 (uniqueNames db), S ∈ b ∧
      ∀ st ∈ api b, st.user_login ≠ S) :
    S ∉ (check_streams now w p api db live).live ∧
    ((g, S) ∈ (check_streams now w p api db live).cleanupLog ↔
      (∃ sub ∈ db.streamers, sub.guild_id = g ∧
        lower sub.streamer_name = lower S) ∧
      get_auto_delete db g = true) := by
  obtain ⟨b, hbmem, hSb, homit⟩ := hbatch
  have hlowU := uniqueNames_lower db hlow
  obtain ⟨cs1, cs2, hdecomp, hno1, hno2, hndb⟩ :=
    chunks100_split (uniqueNames db) b S (List.nodup_dedup _) hbmem hSb
  have hlowc : ∀ c ∈ chunks100 (uniqueNames db), ∀ x ∈ c, lower x = x :=
    fun c hc x hx => hlowU x (mem_of_mem_chunks100 _ c x hc hx)
  have hlow1 : ∀ c ∈ cs1, ∀ x ∈ c, lower x = x := fun c hc =>
    hlowc c (by rw [hdecomp]; exact List.mem_append.2 (Or.inl hc))
  have hlow2 : ∀ c ∈ cs2, ∀ x ∈ c, lower x = x := fun c hc =>
    hlowc c (by
      rw [hdecomp]
      exact List.mem_append.2 (Or.inr (List.mem_cons_of_mem b hc)))
  have hlowb : ∀ x ∈ b, lower x = x :=
    hlowc b (by rw [hdecomp]; exact List.mem_append.2 (Or.inr (List.mem_cons_self b cs2)))
  have hQ : ∀ a : SendAttempt, (fun _ : SendAttempt => false) a = true →
      a.user_login = S := fun a ha => absurd ha (by simp)
  unfold check_streams
  rw [hdecomp, List.foldl_append, List.foldl_cons]
  obtain ⟨a1, a2, a3, a4, a5, a6⟩ := chunksA now (get_all_streamers db) w p api S
    (fun _ => false) hQ hapi cs1
    { live := live, db := db, sendLog := [], cleanupLog := [] } hno1 hlow1 hnd_live
  obtain ⟨b1, b2, b3, b4, b5⟩ := processBatch_offline now (get_all_streamers db)
    w p api S db b
    (cs1.foldl (processBatch now (get_all_streamers db) w p api)
      { live := live, db := db, sendLog := [], cleanupLog := [] })
    hlowb (hapi b) hndb a6 hSb (a1.2 hin) homit a4 a5
  obtain ⟨c1, c2, c3, c4, c5, c6⟩ := chunksA now (get_all_streamers db) w p api S
    (fun _ => false) hQ hapi cs2 _ hno2 hlow2 b5
  have hchain : cleanupsFor
      (cs2.foldl (processBatch now (get_all_streamers db) w p api)
        (processBatch now (get_all_streamers db) w p api
          (cs1.foldl (processBatch now (get_all_streamers db) w p api)
            { live := live, db := db, sendLog := [], cleanupLog := [] })
          b)).cleanupLog S =
      ((db.streamers.filter (fun s => lower s.streamer_name == lower S)).filter
        (fun s => get_auto_delete db s.guild_id)).map (fun s => (s.guild_id, S)) := by
    rw [c3, b2, a3]
    rfl
  constructor
  · intro hmem
    exact b1 (c1.1 hmem)
  · constructor
    · intro hmem
      have hmem2 := (mem_cleanupsFor _ g S).2 hmem
      rw [hchain, List.mem_map] at hmem2
      obtain ⟨s, hs, heq⟩ := hmem2
      have hg : s.guild_id = g := congrArg Prod.fst heq
      rw [List.mem_filter] at hs
      obtain ⟨hs1, hsAD⟩ := hs
      rw [List.mem_filter] at hs1
      obtain ⟨hsmem, hsname⟩ := hs1
      refine ⟨⟨s, hsmem, hg, beq_iff_eq.1 hsname⟩, ?_⟩
      rw [← hg]
      exact hsAD
    · intro hrhs
      obtain ⟨⟨sub, hsm, hg, hname⟩, hAD⟩ := hrhs
      apply (mem_cleanupsFor _ g S).1
      rw [hchain]
      apply List.mem_map.2
      refine ⟨sub, ?_, by rw [hg]⟩
      apply List.mem_filter.2
      refine ⟨List.mem_filter.2 ⟨hsm, by simpa using hname⟩, ?_⟩
      rw [hg]
      exact hAD

/-- C4: when two consecutive cycles both observe S live, notifications for S
can only come from the first (transition) cycle: the second cycle dispatches
none and leaves the membership of S in the live set unchanged (live before and
after). -/
theorem check_streams_idempotent (now1 now2 : Nat) (w1 w2 : NotifyWorld)
    (p1 p2 : CleanupPlatform) (api1 api2 : List String → List Stream)
    (db : DB) (live : List String) (S : String)
    (hlow : ∀ sub ∈ db.streamers, lower sub.streamer_name = sub.streamer_name)
    (hapi1 : ∀ b, ∀ st ∈ api1 b, st.user_login ∈ b)
    (hapi2 : ∀ b, ∀ st ∈ api2 b, st.user_login ∈ b)
    (hnd_live : live.Nodup)
    (h1 : ∃ b ∈ chunks100 (uniqueNames db), ∃ st ∈ api1 b, st.user_login = S)
    (h2 : ∃ b ∈ chunks100 (uniqueNames db), ∃ st ∈ api2 b, st.user_login = S) :
    S ∈ (check_streams now1 w1 p1 api1 db live).live ∧
    notifsFor (check_streams now2 w2 p2 api2
      (check_streams now1 w1 p1 api1 db live).db
      (check_streams now1 w1 p1 api1 db live).live).sendLog S = [] ∧
    S ∈ (check_streams now2 w2 p2 api2
      (check_streams now1 w1 p1 api1 db live).db
      (check_streams now1 w1 p1 api1 db live).live).live := by
  have hin1 : S ∈ (check_streams now1 w1 p1 api1 db live).live :=
    check_streams_sees_live now1 w1 p1 api1 db live S hlow hapi1 hnd_live h1
  have hstr := check_streams_db_streamers now1 w1 p1 api1 db live
  have hlow2 : ∀ sub ∈ (check_streams now1 w1 p1 api1 db live).db.streamers,
      lower sub.streamer_name = sub.streamer_name := by
    intro sub hsub
    rw [hstr] at hsub
    exact hlow sub hsub
  have hUN : uniqueNames (check_streams now1 w1 p1 api1 db live).db =
      uniqueNames db := by
    unfold uniqueNames get_all_streamers
    rw [hstr]
  have hnd2 : (check_streams now1 w1 p1 api1 db live).live.Nodup :=
    check_streams_live_nodup now1 w1 p1 api1 db live hnd_live
  have h2b : ∃ b ∈ chunks100
      (uniqueNames (check_streams now1 w1 p1 api1 db live).db),
      ∃ st ∈ api2 b, st.user_login = S := by
    rw [hUN]
    exact h2
  obtain ⟨hk1, hk2⟩ := check_streams_keeps_live now2 w2 p2 api2
    (check_streams now1 w1 p1 api1 db live).db
    (check_streams now1 w1 p1 api1 db live).live S hlow2 hapi2 hnd2 hin1 h2b
  exact ⟨hin1, hk1, hk2⟩

theorem apiW_logins : ∀ b, ∀ st ∈ apiW b, st.user_login ∈ b := by
  intro b st hst
  simp only [apiW] at hst
  split at hst
  · next hb =>
      rw [List.mem_singleton] at hst
      subst hst
      simpa [streamW] using (contains_iff_mem_str b "alice").1 hb
  · cases hst

theorem apiOldW_logins : ∀ b, ∀ st ∈ apiOldW b, st.user_login ∈ b := by
  intro b st hst
  simp only [apiOldW] at hst
  split at hst
  · next hb =>
      rw [List.mem_singleton] at hst
      subst hst
      simpa [streamOldW] using (contains_iff_mem_str b "alice").1 hb
  · cases hst

theorem apiNoneW_logins : ∀ b, ∀ st ∈ apiNoneW b, st.user_login ∈ b := by
  intro b st hst
  simp [apiNoneW] at hst

/-- Witness for C1: guild 5 gets exactly one notification when alice goes
live two minutes ago, and alice enters the live set. -/
theorem check_streams_notifies_new_live_witness :
    notifCount (check_streams 1000 wW pW apiW dbW []).sendLog 5 "alice" = 1 ∧
    "alice" ∈ (check_streams 1000 wW pW apiW dbW []).live := by
  apply check_streams_notifies_new_live 1000 wW pW apiW dbW [] "alice" 5
    (by decide) (by decide) apiW_logins (by decide) (by decide)
    ⟨{ guild_id := 5, streamer_name := "alice", channel_id := 10,
       custom_channel_id := none }, by decide, rfl, rfl⟩
    (by decide)

/-- Witness for C2: a stream already 1000 seconds old on first observation
produces no notification but alice is marked seen. -/
theorem check_streams_suppresses_old_stream_witness :
    notifsFor (check_streams 1000 wW pW apiOldW dbW []).sendLog "alice" = [] ∧
    "alice" ∈ (check_streams 1000 wW pW apiOldW dbW []).live := by
  apply check_streams_suppresses_old_stream 1000 wW pW apiOldW dbW [] "alice"
    (by decide) apiOldW_logins (by decide) (by decide) (by decide)

/-- Witness for C3: alice live-set entry disappearing from the batch removes
her and invokes cleanup for the auto-delete server. -/
theorem check_streams_offline_cleanup_witness :
    "alice" ∉ (check_streams 1000 wW pW apiNoneW dbW ["alice"]).live ∧
    ((5, "alice") ∈ (check_streams 1000 wW pW apiNoneW dbW ["alice"]).cleanupLog ↔
      (∃ sub ∈ dbW.streamers, sub.guild_id = 5 ∧
        lower sub.streamer_name = lower "alice") ∧
      get_auto_delete dbW 5 = true) := by
  apply check_streams_offline_cleanup 1000 wW pW apiNoneW dbW ["alice"] "alice" 5
    (by decide) apiNoneW_logins (by decide) (by decide) (by decide)

/-- Witness for C4: two cycles that both see alice live notify only on the
transition; the second dispatches nothing for alice. -/
theorem check_streams_idempotent_witness :
    "alice" ∈ (check_streams 1000 wW pW apiW dbW []).live ∧
    notifsFor (check_streams 1100 wW pW apiW
      (check_streams 1000 wW pW apiW dbW []).db
      (check_streams 1000 wW pW apiW dbW []).live).sendLog "alice" = [] ∧
    "alice" ∈ (check_streams 1100 wW pW apiW
      (check_streams 1000 wW pW apiW dbW []).db
      (check_streams 1000 wW pW apiW dbW []).live).live := by
  apply check_streams_idempotent 1000 1100 wW wW pW pW apiW apiW dbW [] "alice"
    (by decide) apiW_logins apiW_logins (by decide) (by decide) (by decide)

end ExcelProtocol
